import Mathlib

/-!
Verification of the rustlox tree-walking Lox interpreter.

This file gives a shallow embedding of the Rust sources
(src/token.rs, src/expr.rs, src/stmt.rs, src/object.rs, src/error.rs,
src/environment.rs, src/callable.rs, src/class.rs, src/interpreter.rs,
src/resolver.rs, src/scanner.rs, src/parser.rs) and proves properties of
that embedding.  Modelling conventions:

* Rust f64 is modelled by the type LoxNum: a rational payload plus a
  distinguished nan marker.  IEEE comparison semantics (nan is not equal
  to anything, including itself) are implemented explicitly.  Division by
  zero produces the nan marker (the model collapses IEEE infinities and
  NaN into one non-finite marker; no theorem below depends on division).
* Rc<RefCell<...>> shared mutable cells (environments, classes,
  instances) are modelled by integer indices into explicit heaps carried
  in the interpreter state; pointer identity is index identity.
* HashMap<String, _> is modelled by an association list with
  insert-replaces-existing semantics; HashMap<Expr, usize> (the resolver
  side-table) uses the structural equality that Rust derives for Expr
  (in which number literals compare by IEEE equality, so nan keys never
  match, exactly as the derived PartialEq on f64 behaves).
* Rust panics (unwrap on None, out-of-bounds indexing) and
  non-termination (unbounded loops, recursion through function calls)
  are modelled by an outer Option: a result of none means the Rust
  program would panic or was cut off by the fuel bound.  All loops and
  non-structural recursion consume fuel.
* Printing to stdout and the error sink are modelled by lists carried in
  the state.
-/

namespace Rustlox

/-- Model of the f64 payload: nan, or a finite value as a rational. -/
inductive LoxNum where
  | nan : LoxNum
  | val : ℚ → LoxNum
deriving DecidableEq, Repr

/-- IEEE f64 equality (used by the derived PartialEq on f64): nan compares
unequal to everything, finite values compare by value. -/
def numEq : LoxNum → LoxNum → Bool
  | LoxNum.val a, LoxNum.val b => a == b
  | _, _ => false

/-- f64 addition; nan propagates. -/
def numAdd : LoxNum → LoxNum → LoxNum
  | LoxNum.val a, LoxNum.val b => LoxNum.val (a + b)
  | _, _ => LoxNum.nan

/-- f64 subtraction; nan propagates. -/
def numSub : LoxNum → LoxNum → LoxNum
  | LoxNum.val a, LoxNum.val b => LoxNum.val (a - b)
  | _, _ => LoxNum.nan

/-- f64 multiplication; nan propagates. -/
def numMul : LoxNum → LoxNum → LoxNum
  | LoxNum.val a, LoxNum.val b => LoxNum.val (a * b)
  | _, _ => LoxNum.nan

/-- f64 division; nan propagates.  Division by zero yields the non-finite
marker (the model does not distinguish IEEE infinities from NaN; no
theorem in this file depends on the result of a division). -/
def numDiv : LoxNum → LoxNum → LoxNum
  | LoxNum.val a, LoxNum.val b => if b = 0 then LoxNum.nan else LoxNum.val (a / b)
  | _, _ => LoxNum.nan

/-- f64 ordering tests: any comparison involving nan is false. -/
def numLt : LoxNum → LoxNum → Bool
  | LoxNum.val a, LoxNum.val b => a < b
  | _, _ => false

/-- f64 less-or-equal; false when either operand is nan. -/
def numLe : LoxNum → LoxNum → Bool
  | LoxNum.val a, LoxNum.val b => a ≤ b
  | _, _ => false

/-- f64 negation; nan propagates.  Models the unary minus on f64. -/
def numNeg : LoxNum → LoxNum
  | LoxNum.val a => LoxNum.val (-a)
  | LoxNum.nan => LoxNum.nan

/-- src/token.rs: enum TokenType. -/
inductive TokenType where
  | leftParen | rightParen | leftBrace | rightBrace | comma | dot
  | minus | plus | semicolon | slash | star
  | bang | bangEqual | equal | equalEqual
  | greater | greaterEqual | less | lessEqual
  | identifier | stringTok | number
  | andK | classK | elseK | falseK | fnK | forK | ifK | nilK | orK
  | printK | returnK | superK | thisK | trueK | varK | whileK
  | eof
deriving DecidableEq, Repr

/-- src/token.rs: enum Literal. -/
inductive Literal where
  | string : String → Literal
  | number : LoxNum → Literal
  | boolean : Bool → Literal
  | none : Literal
deriving DecidableEq, Repr

/-- The equality Rust derives for Literal (PartialEq on f64 is IEEE, so
number literals containing nan are unequal to themselves). -/
def literalEq : Literal → Literal → Bool
  | Literal.string a, Literal.string b => a == b
  | Literal.number a, Literal.number b => numEq a b
  | Literal.boolean a, Literal.boolean b => a == b
  | Literal.none, Literal.none => true
  | _, _ => false

/-- src/token.rs: struct Token. -/
structure Token where
  token_type : TokenType
  lexeme : String
  literal : Literal
  line : Nat
deriving DecidableEq, Repr

/-- The equality Rust derives for Token: all fields significant, literal
compared with the derived (IEEE) literal equality. -/
def tokenEq (a b : Token) : Bool :=
  a.token_type == b.token_type && a.lexeme == b.lexeme
    && literalEq a.literal b.literal && a.line == b.line

/-- src/expr.rs: enum Expr.  Vec of boxed expressions becomes a list. -/
inductive Expr where
  | assign (name : Token) (value : Expr)
  | binary (left : Expr) (operator : Token) (right : Expr)
  | call (callee : Expr) (paren : Token) (arguments : List Expr)
  | get (object : Expr) (name : Token)
  | grouping (expression : Expr)
  | literal (value : Literal)
  | logical (left : Expr) (operator : Token) (right : Expr)
  | set (object : Expr) (name : Token) (value : Expr)
  | superE (keyword : Token) (method : Token)
  | this (keyword : Token)
  | unary (operator : Token) (right : Expr)
  | variable (name : Token)
deriving Repr

mutual

/-- The equality Rust derives for Expr (used as the HashMap key equality of
the resolver side-table); tokens compare with the derived token equality,
so number literals containing nan never match themselves. -/
def exprEq : Expr → Expr → Bool
  | Expr.assign n v, Expr.assign n' v' => tokenEq n n' && exprEq v v'
  | Expr.binary l o r, Expr.binary l' o' r' => exprEq l l' && tokenEq o o' && exprEq r r'
  | Expr.call c p a, Expr.call c' p' a' => exprEq c c' && tokenEq p p' && exprListEq a a'
  | Expr.get o n, Expr.get o' n' => exprEq o o' && tokenEq n n'
  | Expr.grouping e, Expr.grouping e' => exprEq e e'
  | Expr.literal v, Expr.literal v' => literalEq v v'
  | Expr.logical l o r, Expr.logical l' o' r' => exprEq l l' && tokenEq o o' && exprEq r r'
  | Expr.set o n v, Expr.set o' n' v' => exprEq o o' && tokenEq n n' && exprEq v v'
  | Expr.superE k m, Expr.superE k' m' => tokenEq k k' && tokenEq m m'
  | Expr.this k, Expr.this k' => tokenEq k k'
  | Expr.unary o r, Expr.unary o' r' => tokenEq o o' && exprEq r r'
  | Expr.variable n, Expr.variable n' => tokenEq n n'
  | _, _ => false

/-- Element-wise derived equality on expression lists. -/
def exprListEq : List Expr → List Expr → Bool
  | [], [] => true
  | x :: xs, y :: ys => exprEq x y && exprListEq xs ys
  | _, _ => false

end

/-- src/stmt.rs: enum Stmt.  Vec<Option<Box<Stmt>>> becomes
List (Option Stmt); Box<Option<Stmt>> becomes Option Stmt. -/
inductive Stmt where
  | block (statements : List (Option Stmt))
  | classS (name : Token) (superclass : Option Expr) (methods : List Stmt)
  | expression (expression : Expr)
  | function (name : Token) (params : List Token) (body : List (Option Stmt))
  | ifS (condition : Expr) (then_branch : Stmt) (else_branch : Option Stmt)
  | print (expression : Expr)
  | returnS (keyword : Token) (value : Option Expr)
  | var (name : Token) (initializer : Option Expr)
  | whileS (condition : Expr) (body : Stmt)
deriving Repr

/-- The only native function in src/interpreter.rs is clock. -/
inductive NativeFn where
  | clock
deriving DecidableEq, Repr

mutual

/-- src/object.rs: enum Object.  The Rc<RefCell<LoxClass>> and
Rc<RefCell<LoxInstance>> payloads are heap indices. -/
inductive Object where
  | string : String → Object
  | number : LoxNum → Object
  | boolean : Bool → Object
  | callable : LoxCallable → Object
  | classRef : Nat → Object
  | instanceRef : Nat → Object
  | none : Object

/-- src/callable.rs: enum LoxCallable.  The native body is identified by
its NativeFn tag; the user closure is an environment heap index. -/
inductive LoxCallable where
  | native (arity : Nat) (body : NativeFn)
  | user (name : Token) (params : List Token) (body : List (Option Stmt))
      (closure : Nat) (is_initializer : Bool)

end

/-- src/class.rs: struct LoxClass (superclass is an Object, as in the
source, normally Object.none or Object.classRef). -/
structure LoxClass where
  name : String
  superclass : Object
  methods : List (String × LoxCallable)

/-- src/class.rs: struct LoxInstance; class is a class heap index. -/
structure LoxInstance where
  cls : Nat
  fields : List (String × Object)

/-- src/error.rs: enum LoxError. -/
inductive LoxError where
  | parseError
  | runtimeError (message : String) (token : Option Token)
  | ret (value : Object)

/-- HashMap<String, V> lookup on the association-list model. -/
def mapGet {α : Type} : List (String × α) → String → Option α
  | [], _ => Option.none
  | (k, v) :: rest, key => if k = key then some v else mapGet rest key

/-- HashMap<String, V> insert: replaces an existing binding, else appends. -/
def mapInsert {α : Type} : List (String × α) → String → α → List (String × α)
  | [], key, v => [(key, v)]
  | (k, v0) :: rest, key, v =>
      if k = key then (key, v) :: rest else (k, v0) :: mapInsert rest key v

/-- HashMap<String, V> contains_key. -/
def mapContains {α : Type} (m : List (String × α)) (key : String) : Bool :=
  (mapGet m key).isSome

/-- src/environment.rs: struct Environment; enclosing is an optional
environment heap index. -/
structure Environment where
  enclosing : Option Nat
  values : List (String × Object)

/-- src/environment.rs Environment::new. -/
def Environment.new (enclosing : Option Nat) : Environment :=
  { enclosing := enclosing, values := [] }

/-- src/environment.rs Environment::define (HashMap::insert). -/
def Environment.define (env : Environment) (name : String) (value : Object) : Environment :=
  { env with values := mapInsert env.values name value }

end Rustlox

namespace Rustlox

/-- The environment heap: index i names the i-th Rc<RefCell<Environment>>
ever allocated. -/
abbrev EnvHeap := List Environment

/-- src/environment.rs Environment::get: look up in this node's values,
else recurse into the enclosing environment, else report
Undefined variable.  The chain walk consumes fuel (a cyclic enclosing
chain would loop in Rust); a dangling index is a panic (none). -/
def envGet (fuel : Nat) (envs : EnvHeap) (e : Nat) (var_name : Token) :
    Option (Except LoxError Object) :=
  match envs.get? e with
  | Option.none => Option.none
  | some env =>
    match mapGet env.values var_name.lexeme with
    | some v => some (Except.ok v)
    | Option.none =>
      match env.enclosing with
      | some parent =>
        match fuel with
        | 0 => Option.none
        | f + 1 => envGet f envs parent var_name
      | Option.none =>
        some (Except.error (LoxError.runtimeError
          ("Undefined variable '" ++ var_name.lexeme ++ "'.") (some var_name)))

/-- src/environment.rs Environment::assign: overwrite in the first node of
the chain that contains the name, else report Undefined variable (note:
the source message here has no trailing period). -/
def envAssign (fuel : Nat) (envs : EnvHeap) (e : Nat) (var_name : Token)
    (value : Object) : Option (Except LoxError Unit × EnvHeap) :=
  match envs.get? e with
  | Option.none => Option.none
  | some env =>
    match mapContains env.values var_name.lexeme with
    | true =>
      some (Except.ok (),
        envs.set e { env with values := mapInsert env.values var_name.lexeme value })
    | false =>
      match env.enclosing with
      | some parent =>
        match fuel with
        | 0 => Option.none
        | f + 1 => envAssign f envs parent var_name value
      | Option.none =>
        some (Except.error (LoxError.runtimeError
          ("Undefined variable '" ++ var_name.lexeme ++ "'") (some var_name)), envs)

/-- src/environment.rs ancestor: follow the enclosing link distance times;
the source unwraps at each step, so a missing link is a panic (none). -/
def ancestor (envs : EnvHeap) (e : Nat) : Nat → Option Nat
  | 0 => some e
  | d + 1 =>
    match envs.get? e with
    | Option.none => Option.none
    | some env =>
      match env.enclosing with
      | Option.none => Option.none
      | some parent => ancestor envs parent d

/-- src/environment.rs get_at: read the name from the ancestor at the
given distance; a missing name yields Ok(Object::None), never an error. -/
def get_at (envs : EnvHeap) (e : Nat) (distance : Nat) (name : String) :
    Option (Except LoxError Object) :=
  match ancestor envs e distance with
  | Option.none => Option.none
  | some a =>
    match envs.get? a with
    | Option.none => Option.none
    | some env =>
      match mapGet env.values name with
      | some v => some (Except.ok v)
      | Option.none => some (Except.ok Object.none)

/-- src/environment.rs assign_at: insert the name into the ancestor at the
given distance; always returns Ok. -/
def assign_at (envs : EnvHeap) (e : Nat) (distance : Nat) (name : Token)
    (value : Object) : Option (Except LoxError Unit × EnvHeap) :=
  match ancestor envs e distance with
  | Option.none => Option.none
  | some a =>
    match envs.get? a with
    | Option.none => Option.none
    | some env =>
      some (Except.ok (),
        envs.set a { env with values := mapInsert env.values name.lexeme value })

/-- src/interpreter.rs is_truthy: nil and false are falsy, all else truthy. -/
def is_truthy : Object → Bool
  | Object.none => false
  | Object.boolean v => v
  | _ => true

/-- src/interpreter.rs is_equal: nil equals nil; numbers, strings and
booleans compare by payload (IEEE for numbers); every other pairing,
including a callable, class or instance compared with itself, falls into
the catch-all arm and is false. -/
def is_equal : Object → Object → Bool
  | Object.none, Object.none => true
  | Object.none, _ => false
  | _, Object.none => false
  | Object.number v1, Object.number v2 => numEq v1 v2
  | Object.string v1, Object.string v2 => v1 == v2
  | Object.boolean v1, Object.boolean v2 => v1 == v2
  | _, _ => false

/-- Decimal text of a finite numeric payload.  For integral values this
matches Rust's f64 to_string after the interpreter strips the trailing
".0"; non-integral values are rendered as a fraction, which differs from
Rust's decimal output (no theorem in this file depends on how a
non-integral number prints). -/
def numToString : LoxNum → String
  | LoxNum.nan => "NaN"
  | LoxNum.val q => if q.den = 1 then toString q.num else toString q

/-- src/class.rs Display for LoxClass / LoxInstance and
src/callable.rs Display for LoxCallable, merged into
src/interpreter.rs stringify.  Class and instance display needs the class
heap to read the class name. -/
def stringify (classes : List LoxClass) (insts : List LoxInstance) : Object → String
  | Object.none => "nil"
  | Object.number v => numToString v
  | Object.boolean v => if v then "true" else "false"
  | Object.string v => v
  | Object.callable (LoxCallable.native _ _) => "<native fn>"
  | Object.callable (LoxCallable.user name _ _ _ _) => "<fn " ++ name.lexeme ++ ">"
  | Object.classRef c =>
    match classes.get? c with
    | some cl => cl.name
    | Option.none => ""
  | Object.instanceRef i =>
    match insts.get? i with
    | some inst =>
      (match classes.get? inst.cls with
       | some cl => cl.name
       | Option.none => "") ++ " instance"
    | Option.none => ""

/-- src/class.rs LoxClass::find_method: the class's own method table
first, then the superclass chain.  The chain walk consumes fuel (a cyclic
superclass chain would loop in Rust); the outer none is fuel exhaustion
or a dangling class index. -/
def find_method (fuel : Nat) (classes : List LoxClass) (c : LoxClass)
    (name : String) : Option (Option LoxCallable) :=
  match mapContains c.methods name with
  | true => some (mapGet c.methods name)
  | false =>
    match c.superclass with
    | Object.classRef sid =>
      match classes.get? sid with
      | Option.none => Option.none
      | some sc =>
        match fuel with
        | 0 => Option.none
        | f + 1 => find_method f classes sc name
    | _ => some Option.none

/-- src/interpreter.rs struct Interpreter together with the heaps behind
its Rc<RefCell> cells, the print output, and the error sink state of
src/lox.rs (runtime_error reports and the HAD_RUNTIME_ERROR flag). -/
structure InterpState where
  envs : EnvHeap
  classes : List LoxClass
  insts : List LoxInstance
  globals : Nat
  environment : Nat
  locals : List (Expr × Nat)
  output : List String
  reported : List (String × Option Nat)
  hadRuntimeError : Bool

/-- src/lox.rs Lox::runtime_error: print the message (with the token line
when present) and set HAD_RUNTIME_ERROR.  The source marks the other
error variants unreachable at this call site; they leave the state
unchanged here and indeed no caller in this file passes them. -/
def Lox.runtime_error (st : InterpState) : LoxError → InterpState
  | LoxError.runtimeError message token =>
    { st with
      reported := st.reported ++ [(message, token.map Token.line)],
      hadRuntimeError := true }
  | _ => st

/-- HashMap<Expr, usize>::get on the resolver side-table, using the
derived (structural, IEEE-literal) expression equality as key equality. -/
def localsGet (locals : List (Expr × Nat)) (e : Expr) : Option Nat :=
  match locals with
  | [] => Option.none
  | (k, d) :: rest => if exprEq k e then some d else localsGet rest e

/-- HashMap<Expr, usize>::insert on the resolver side-table
(src/interpreter.rs Interpreter::resolve). -/
def localsInsert (locals : List (Expr × Nat)) (e : Expr) (d : Nat) :
    List (Expr × Nat) :=
  match locals with
  | [] => [(e, d)]
  | (k, d0) :: rest =>
    if exprEq k e then (e, d) :: rest else (k, d0) :: localsInsert rest e d

/-- One resolver scope: HashMap<String, bool>. -/
abbrev Scope := List (String × Bool)

/-- src/resolver.rs Resolver::resolve_local: iterate i over scope indices
from innermost (scopes.len()-1) down to 0; every scope containing the
name triggers interpreter.resolve(expr, scopes.len()-1-i), each insert
overwriting the previous one.  The loop has no early exit. -/
def resolve_local (scopes : List Scope) (locals : List (Expr × Nat))
    (expr : Expr) (name : Token) : List (Expr × Nat) :=
  (List.range scopes.length).reverse.foldl
    (fun acc i =>
      match scopes.get? i with
      | some scope =>
        if mapContains scope name.lexeme then
          localsInsert acc expr (scopes.length - 1 - i)
        else acc
      | Option.none => acc)
    locals

end Rustlox

namespace Rustlox

/-- src/callable.rs LoxCallable::arity. -/
def LoxCallable.arity : LoxCallable → Nat
  | LoxCallable.native arity _ => arity
  | LoxCallable.user _ params _ _ _ => params.length

/-- The native clock body.  Its real value is the wall clock, which is not
modelled; the model returns a fixed number.  No theorem in this file
depends on the value clock returns. -/
def runNative : NativeFn → List Object → Object
  | NativeFn.clock, _ => Object.number (LoxNum.val 0)

/-- Allocate a new Rc<RefCell<Environment>>: its index is the current heap
length. -/
def allocEnv (st : InterpState) (env : Environment) : Nat × InterpState :=
  (st.envs.length, { st with envs := st.envs ++ [env] })

/-- Define a name in the interpreter's current environment
(self.environment.borrow_mut().define(..)).  A dangling environment index
would be a panic (none); the interpreter only stores live indices. -/
def stDefine (st : InterpState) (name : String) (v : Object) : Option InterpState :=
  match st.envs.get? st.environment with
  | Option.none => Option.none
  | some env =>
    some { st with envs := st.envs.set st.environment (env.define name v) }

/-- src/callable.rs LoxCallable::call, parameter-binding loop: bind each
parameter to the argument at the same index.  The source unwraps
arguments.get(i), so fewer arguments than parameters is a panic (none);
extra arguments are ignored. -/
def defineParams : Environment → List Token → List Object → Option Environment
  | env, [], _ => some env
  | _, _ :: _, [] => Option.none
  | env, p :: ps, a :: args => defineParams (env.define p.lexeme a) ps args

/-- src/callable.rs LoxCallable::bind: wrap the closure in a fresh
environment holding this → instance.  bind on a native callable is
unreachable! in the source, hence a panic (none). -/
def bind (st : InterpState) (c : LoxCallable) (inst : Object) :
    Option (LoxCallable × InterpState) :=
  match c with
  | LoxCallable.user name params body closure is_init =>
    let env := (Environment.new (some closure)).define "this" inst
    let (envId, st1) := allocEnv st env
    some (LoxCallable.user name params body envId is_init, st1)
  | LoxCallable.native _ _ => Option.none

/-- src/class.rs LoxInstance::get: a field if present, else the method
found on the class (walking the superclass chain) bound to the receiver,
else an Undefined property error.  Binding allocates an environment, so
the state can change. -/
def instance_get (fuel : Nat) (st : InterpState) (instId : Nat) (name : Token) :
    Option (Except LoxError Object × InterpState) :=
  match st.insts.get? instId with
  | Option.none => Option.none
  | some inst =>
    match mapGet inst.fields name.lexeme with
    | some field => some (Except.ok field, st)
    | Option.none =>
      match st.classes.get? inst.cls with
      | Option.none => Option.none
      | some cl =>
        match find_method fuel st.classes cl name.lexeme with
        | Option.none => Option.none
        | some (some method) =>
          match bind st method (Object.instanceRef instId) with
          | Option.none => Option.none
          | some (bound, st1) => some (Except.ok (Object.callable bound), st1)
        | some Option.none =>
          some (Except.error (LoxError.runtimeError
            ("Undefined property '" ++ name.lexeme ++ "'.") (some name)), st)

/-- src/interpreter.rs Interpreter::look_up_variable: with a depth entry
in the side-table, get_at from the current environment at exactly that
distance; otherwise Environment::get on the globals. -/
def look_up_variable (fuel : Nat) (st : InterpState) (name : Token) (expr : Expr) :
    Option (Except LoxError Object) :=
  match localsGet st.locals expr with
  | some distance => get_at st.envs st.environment distance name.lexeme
  | Option.none => envGet fuel st.envs st.globals name

/-- src/interpreter.rs Stmt::Class arm, method-table loop: every
Stmt::Function method becomes a user callable closing over the
interpreter's current environment, is_initializer iff the method name is
literally init; non-function entries are skipped (the source's
if-let). -/
def buildMethods (closureEnv : Nat) : List Stmt → List (String × LoxCallable) → List (String × LoxCallable)
  | [], acc => acc
  | Stmt.function name params body :: rest, acc =>
    buildMethods closureEnv rest
      (mapInsert acc name.lexeme
        (LoxCallable.user name params body closureEnv (name.lexeme == "init")))
  | _ :: rest, acc => buildMethods closureEnv rest acc

mutual

/-- src/interpreter.rs Interpreter::evaluate.  Fuel decreases at every
recursive step; none is a panic or fuel exhaustion. -/
def evaluate : Nat → InterpState → Expr → Option (Except LoxError Object × InterpState)
  | 0, _, _ => Option.none
  | fuel + 1, st, e =>
    match e with
    | Expr.literal v =>
      match v with
      | Literal.string s => some (Except.ok (Object.string s), st)
      | Literal.number n => some (Except.ok (Object.number n), st)
      | Literal.boolean b => some (Except.ok (Object.boolean b), st)
      | Literal.none => some (Except.ok Object.none, st)
    | Expr.grouping inner => evaluate fuel st inner
    | Expr.assign name value =>
      match evaluate fuel st value with
      | Option.none => Option.none
      | some (Except.error err, st1) => some (Except.error err, st1)
      | some (Except.ok val, st1) =>
        match localsGet st1.locals (Expr.assign name value) with
        | some distance =>
          match assign_at st1.envs st1.environment distance name val with
          | Option.none => Option.none
          | some (Except.error err, envs1) => some (Except.error err, { st1 with envs := envs1 })
          | some (Except.ok _, envs1) => some (Except.ok val, { st1 with envs := envs1 })
        | Option.none =>
          match envAssign fuel st1.envs st1.globals name val with
          | Option.none => Option.none
          | some (Except.error err, envs1) => some (Except.error err, { st1 with envs := envs1 })
          | some (Except.ok _, envs1) => some (Except.ok val, { st1 with envs := envs1 })
    | Expr.logical left operator right =>
      match evaluate fuel st left with
      | Option.none => Option.none
      | some (Except.error err, st1) => some (Except.error err, st1)
      | some (Except.ok left_lit, st1) =>
        match operator.token_type with
        | TokenType.orK =>
          if is_truthy left_lit then some (Except.ok left_lit, st1)
          else evaluate fuel st1 right
        | _ =>
          if !is_truthy left_lit then some (Except.ok left_lit, st1)
          else evaluate fuel st1 right
    | Expr.call callee paren arguments =>
      match evaluateArgs fuel st arguments with
      | Option.none => Option.none
      | some (Except.error err, st1) => some (Except.error err, st1)
      | some (Except.ok argVals, st1) =>
        match evaluate fuel st1 callee with
        | Option.none => Option.none
        | some (Except.error err, st2) => some (Except.error err, st2)
        | some (Except.ok calleeVal, st2) =>
          callObject fuel st2 paren calleeVal argVals arguments.length
    | Expr.get object name =>
      match evaluate fuel st object with
      | Option.none => Option.none
      | some (Except.error err, st1) => some (Except.error err, st1)
      | some (Except.ok v, st1) =>
        match v with
        | Object.instanceRef instId => instance_get fuel st1 instId name
        | _ =>
          some (Except.error (LoxError.runtimeError
            "Only instances have properties." (some name)), st1)
    | Expr.set object name value =>
      match evaluate fuel st object with
      | Option.none => Option.none
      | some (Except.error err, st1) => some (Except.error err, st1)
      | some (Except.ok v, st1) =>
        match v with
        | Object.instanceRef instId =>
          match evaluate fuel st1 value with
          | Option.none => Option.none
          | some (Except.error err, st2) => some (Except.error err, st2)
          | some (Except.ok val, st2) =>
            match st2.insts.get? instId with
            | Option.none => Option.none
            | some inst =>
              let inst1 : LoxInstance :=
                { inst with fields := mapInsert inst.fields name.lexeme val }
              some (Except.ok val, { st2 with insts := st2.insts.set instId inst1 })
        | _ =>
          some (Except.error (LoxError.runtimeError
            "Only instances have fields" (some name)), st1)
    | Expr.this keyword =>
      match look_up_variable fuel st keyword (Expr.this keyword) with
      | Option.none => Option.none
      | some r => some (r, st)
    | Expr.unary operator right =>
      match evaluate fuel st right with
      | Option.none => Option.none
      | some (Except.error err, st1) => some (Except.error err, st1)
      | some (Except.ok rv, st1) =>
        match operator.token_type with
        | TokenType.bang =>
          match rv with
          | Object.boolean value => some (Except.ok (Object.boolean !value), st1)
          | _ =>
            some (Except.error (LoxError.runtimeError
              "Operand must be a boolean." (some operator)), st1)
        | TokenType.minus =>
          match rv with
          | Object.number value => some (Except.ok (Object.number (numNeg value)), st1)
          | _ =>
            some (Except.error (LoxError.runtimeError
              "Operand must be a number." (some operator)), st1)
        | _ =>
          some (Except.error (LoxError.runtimeError
            "Invalid operator." (some operator)), st1)
    | Expr.variable name =>
      match look_up_variable fuel st name (Expr.variable name) with
      | Option.none => Option.none
      | some r => some (r, st)
    | Expr.binary left operator right =>
      match evaluate fuel st left with
      | Option.none => Option.none
      | some (Except.error err, st1) => some (Except.error err, st1)
      | some (Except.ok lv, st1) =>
        match evaluate fuel st1 right with
        | Option.none => Option.none
        | some (Except.error err, st2) => some (Except.error err, st2)
        | some (Except.ok rv, st2) =>
          match operator.token_type with
          | TokenType.minus =>
            match lv, rv with
            | Object.number v1, Object.number v2 =>
              some (Except.ok (Object.number (numSub v1 v2)), st2)
            | _, _ =>
              some (Except.error (LoxError.runtimeError
                "Operands must be numbers." (some operator)), st2)
          | TokenType.slash =>
            match lv, rv with
            | Object.number v1, Object.number v2 =>
              some (Except.ok (Object.number (numDiv v1 v2)), st2)
            | _, _ =>
              some (Except.error (LoxError.runtimeError
                "Operands must be numbers." (some operator)), st2)
          | TokenType.plus =>
            match lv, rv with
            | Object.number v1, Object.number v2 =>
              some (Except.ok (Object.number (numAdd v1 v2)), st2)
            | Object.string v1, Object.string v2 =>
              some (Except.ok (Object.string (v1 ++ v2)), st2)
            | _, _ =>
              some (Except.error (LoxError.runtimeError
                "Operands must be both numbers or strings." (some operator)), st2)
          | TokenType.star =>
            match lv, rv with
            | Object.number v1, Object.number v2 =>
              some (Except.ok (Object.number (numMul v1 v2)), st2)
            | _, _ =>
              some (Except.error (LoxError.runtimeError
                "Operands must be numbers." (some operator)), st2)
          | TokenType.greater =>
            match lv, rv with
            | Object.number v1, Object.number v2 =>
              some (Except.ok (Object.boolean (numLt v2 v1)), st2)
            | _, _ =>
              some (Except.error (LoxError.runtimeError
                "Operands must be numbers." (some operator)), st2)
          | TokenType.greaterEqual =>
            match lv, rv with
            | Object.number v1, Object.number v2 =>
              some (Except.ok (Object.boolean (numLe v2 v1)), st2)
            | _, _ =>
              some (Except.error (LoxError.runtimeError
                "Operands must be numbers." (some operator)), st2)
          | TokenType.less =>
            match lv, rv with
            | Object.number v1, Object.number v2 =>
              some (Except.ok (Object.boolean (numLt v1 v2)), st2)
            | _, _ =>
              some (Except.error (LoxError.runtimeError
                "Operands must be numbers." (some operator)), st2)
          | TokenType.lessEqual =>
            match lv, rv with
            | Object.number v1, Object.number v2 =>
              some (Except.ok (Object.boolean (numLe v1 v2)), st2)
            | _, _ =>
              some (Except.error (LoxError.runtimeError
                "Operands must be numbers." (some operator)), st2)
          | TokenType.bangEqual =>
            some (Except.ok (Object.boolean (!is_equal lv rv)), st2)
          | TokenType.equalEqual =>
            some (Except.ok (Object.boolean (is_equal lv rv)), st2)
          | _ =>
            some (Except.error (LoxError.runtimeError
              "Invalid operator." (some operator)), st2)
    | Expr.superE _ _ =>
      some (Except.error (LoxError.runtimeError
        "Unsupported expression." Option.none), st)

/-- The argument-evaluation loop of the Expr::Call arm: evaluate the
arguments left to right, stopping at the first error. -/
def evaluateArgs : Nat → InterpState → List Expr → Option (Except LoxError (List Object) × InterpState)
  | 0, _, _ => Option.none
  | _ + 1, st, [] => some (Except.ok [], st)
  | fuel + 1, st, e :: rest =>
    match evaluate fuel st e with
    | Option.none => Option.none
    | some (Except.error err, st1) => some (Except.error err, st1)
    | some (Except.ok v, st1) =>
      match evaluateArgs fuel st1 rest with
      | Option.none => Option.none
      | some (Except.error err, st2) => some (Except.error err, st2)
      | some (Except.ok vs, st2) => some (Except.ok (v :: vs), st2)

/-- src/interpreter.rs Expr::Call arm, dispatch on the evaluated callee
(lines 272-311): classes allocate an instance and, only when an init
method exists anywhere on the inheritance walk, check its arity and call
it bound to the instance (discarding its result); plain callables check
arity and call; anything else is a runtime error.  argCount is
arguments.len(), used in the error messages. -/
def callObject : Nat → InterpState → Token → Object → List Object → Nat → Option (Except LoxError Object × InterpState)
  | 0, _, _, _, _, _ => Option.none
  | fuel + 1, st, paren, calleeVal, argVals, argCount =>
    match calleeVal with
    | Object.classRef cid =>
      match st.classes.get? cid with
      | Option.none => Option.none
      | some class0 =>
        let instId := st.insts.length
        let st1 := { st with insts := st.insts ++ [({ cls := cid, fields := [] } : LoxInstance)] }
        match find_method fuel st1.classes class0 "init" with
        | Option.none => Option.none
        | some (some initializer) =>
          if argVals.length ≠ initializer.arity then
            some (Except.error (LoxError.runtimeError
              ("Initializer expected " ++ toString initializer.arity
                ++ " arguments but got " ++ toString argCount ++ ".")
              (some paren)), st1)
          else
            match bind st1 initializer (Object.instanceRef instId) with
            | Option.none => Option.none
            | some (bound, st2) =>
              match callCallable fuel st2 bound argVals with
              | Option.none => Option.none
              | some (_, st3) => some (Except.ok (Object.instanceRef instId), st3)
        | some Option.none => some (Except.ok (Object.instanceRef instId), st1)
    | Object.callable function =>
      if argVals.length ≠ function.arity then
        some (Except.error (LoxError.runtimeError
          ("Expected " ++ toString function.arity
            ++ " arguments but got " ++ toString argCount ++ ".")
          (some paren)), st)
      else
        match callCallable fuel st function argVals with
        | Option.none => Option.none
        | some (v, st1) => some (Except.ok v, st1)
    | _ =>
      some (Except.error (LoxError.runtimeError
        "Callee must be a callable or a class" (some paren)), st)

/-- src/callable.rs LoxCallable::call: natives run their host body; user
callables bind parameters in a fresh environment enclosing the closure,
execute the body as a block, and select the result: a Return signal
supplies the value, anything else (normal completion, or a runtime error,
which this function swallows) yields nil — except that an initializer
always answers with the this bound at closure distance 0. -/
def callCallable : Nat → InterpState → LoxCallable → List Object → Option (Object × InterpState)
  | 0, _, _, _ => Option.none
  | fuel + 1, st, c, arguments =>
    match c with
    | LoxCallable.native _ body => some (runNative body arguments, st)
    | LoxCallable.user _ params body closure is_initializer =>
      match defineParams (Environment.new (some closure)) params arguments with
      | Option.none => Option.none
      | some env =>
        let (envId, st1) := allocEnv st env
        match execute_block fuel st1 body envId with
        | Option.none => Option.none
        | some (ret, st2) =>
          let this_val : Option Object :=
            match get_at st2.envs closure 0 "this" with
            | some (Except.ok v) => some v
            | _ => Option.none
          match ret with
          | Except.error (LoxError.ret value) =>
            if is_initializer then
              match this_val with
              | some v => some (v, st2)
              | Option.none => Option.none
            else some (value, st2)
          | _ =>
            if is_initializer then
              match this_val with
              | some v => some (v, st2)
              | Option.none => Option.none
            else some (Object.none, st2)

/-- src/interpreter.rs Interpreter::execute. -/
def execute : Nat → InterpState → Stmt → Option (Except LoxError Unit × InterpState)
  | 0, _, _ => Option.none
  | fuel + 1, st, stmt =>
    match stmt with
    | Stmt.expression expr =>
      match evaluate fuel st expr with
      | Option.none => Option.none
      | some (Except.ok _, st1) => some (Except.ok (), st1)
      | some (Except.error (LoxError.ret value), st1) =>
        some (Except.error (LoxError.ret value), st1)
      | some (Except.error err, st1) =>
        some (Except.ok (), Lox.runtime_error st1 err)
    | Stmt.function name params body =>
      let function := LoxCallable.user name params body st.environment false
      match stDefine st name.lexeme (Object.callable function) with
      | Option.none => Option.none
      | some st1 => some (Except.ok (), st1)
    | Stmt.ifS condition then_branch else_branch =>
      match evaluate fuel st condition with
      | Option.none => Option.none
      | some (Except.error (LoxError.ret value), st1) =>
        some (Except.error (LoxError.ret value), st1)
      | some (Except.error err, st1) =>
        some (Except.ok (), Lox.runtime_error st1 err)
      | some (Except.ok cond, st1) =>
        if is_truthy cond then
          match execute fuel st1 then_branch with
          | Option.none => Option.none
          | some (Except.error err, st2) => some (Except.error err, st2)
          | some (Except.ok _, st2) => some (Except.ok (), st2)
        else
          match else_branch with
          | some else_stmt =>
            match execute fuel st1 else_stmt with
            | Option.none => Option.none
            | some (Except.error err, st2) => some (Except.error err, st2)
            | some (Except.ok _, st2) => some (Except.ok (), st2)
          | Option.none => some (Except.ok (), st1)
    | Stmt.whileS condition body => executeWhile fuel st condition body
    | Stmt.print expr =>
      match evaluate fuel st expr with
      | Option.none => Option.none
      | some (Except.ok lit, st1) =>
        some (Except.ok (),
          { st1 with output := st1.output ++ [stringify st1.classes st1.insts lit] })
      | some (Except.error (LoxError.ret value), st1) =>
        some (Except.error (LoxError.ret value), st1)
      | some (Except.error err, st1) => some (Except.error err, st1)
    | Stmt.returnS _ value =>
      match value with
      | some expr =>
        match evaluate fuel st expr with
        | Option.none => Option.none
        | some (Except.error err, st1) => some (Except.error err, st1)
        | some (Except.ok res, st1) =>
          some (Except.error (LoxError.ret res), st1)
      | Option.none => some (Except.error (LoxError.ret Object.none), st)
    | Stmt.var name initializer =>
      match initializer with
      | some init_expr =>
        match evaluate fuel st init_expr with
        | Option.none => Option.none
        | some (Except.error err, st1) => some (Except.error err, st1)
        | some (Except.ok value, st1) =>
          match stDefine st1 name.lexeme value with
          | Option.none => Option.none
          | some st2 => some (Except.ok (), st2)
      | Option.none =>
        match stDefine st name.lexeme Object.none with
        | Option.none => Option.none
        | some st1 => some (Except.ok (), st1)
    | Stmt.block statements =>
      let (envId, st1) := allocEnv st (Environment.new (some st.environment))
      execute_block fuel st1 statements envId
    | Stmt.classS name _ methods =>
      match stDefine st name.lexeme Object.none with
      | Option.none => Option.none
      | some st1 =>
        let methods_stmts := buildMethods st1.environment methods []
        let cid := st1.classes.length
        let st2 := { st1 with classes := st1.classes ++
          [({ name := name.lexeme, superclass := Object.none,
              methods := methods_stmts } : LoxClass)] }
        match envAssign fuel st2.envs st2.environment name (Object.classRef cid) with
        | Option.none => Option.none
        | some (_, envs1) => some (Except.ok (), { st2 with envs := envs1 })

/-- src/interpreter.rs Stmt::While arm: evaluate the condition (a
condition error is reported and the loop exits Ok, a Return signal
propagates), then run the body (whose errors propagate) and iterate. -/
def executeWhile : Nat → InterpState → Expr → Stmt → Option (Except LoxError Unit × InterpState)
  | 0, _, _, _ => Option.none
  | fuel + 1, st, condition, body =>
    match evaluate fuel st condition with
    | Option.none => Option.none
    | some (Except.error (LoxError.ret value), st1) =>
      some (Except.error (LoxError.ret value), st1)
    | some (Except.error err, st1) =>
      some (Except.ok (), Lox.runtime_error st1 err)
    | some (Except.ok cond, st1) =>
      if is_truthy cond then
        match execute fuel st1 body with
        | Option.none => Option.none
        | some (Except.error err, st2) => some (Except.error err, st2)
        | some (Except.ok _, st2) => executeWhile fuel st2 condition body
      else some (Except.ok (), st1)

/-- The statement loop of src/interpreter.rs execute_block: run the
statements in order (flattening away the None entries), stopping at the
first error. -/
def executeSeq : Nat → InterpState → List (Option Stmt) → Option (Except LoxError Unit × InterpState)
  | 0, _, _ => Option.none
  | _ + 1, st, [] => some (Except.ok (), st)
  | fuel + 1, st, Option.none :: rest => executeSeq fuel st rest
  | fuel + 1, st, some s :: rest =>
    match execute fuel st s with
    | Option.none => Option.none
    | some (Except.error err, st1) => some (Except.error err, st1)
    | some (Except.ok _, st1) => executeSeq fuel st1 rest

/-- src/interpreter.rs Interpreter::execute_block: remember the previous
current environment, switch to the block environment, run the statements,
and restore the previous environment both when a statement fails (error
or Return signal) and on normal completion. -/
def execute_block : Nat → InterpState → List (Option Stmt) → Nat → Option (Except LoxError Unit × InterpState)
  | 0, _, _, _ => Option.none
  | fuel + 1, st, statements, environment =>
    let previous := st.environment
    let st1 := { st with environment := environment }
    match executeSeq fuel st1 statements with
    | Option.none => Option.none
    | some (Except.error err, st2) =>
      some (Except.error err, { st2 with environment := previous })
    | some (Except.ok _, st2) =>
      some (Except.ok (), { st2 with environment := previous })

end

/-- src/interpreter.rs Interpreter::interpret: execute every statement of
the program in order, flattening away the None entries and discarding
each statement's result (the for loop binds it to _), so execution always
continues with the next statement. -/
def interpret (fuel : Nat) (st : InterpState) : List (Option Stmt) → Option InterpState
  | [] => some st
  | Option.none :: rest => interpret fuel st rest
  | some s :: rest =>
    match execute fuel st s with
    | Option.none => Option.none
    | some (_, st1) => interpret fuel st1 rest

end Rustlox

namespace Rustlox

/-- src/scanner.rs: struct Scanner, with the error sink (Lox::error calls)
and stdout printlns carried alongside. -/
structure ScannerState where
  source : List Char
  tokens : List Token
  start : Nat
  current : Nat
  line : Nat
  in_comment_block : Bool
  errors : List (Nat × String)
  printed : List String

/-- src/scanner.rs Scanner::new. -/
def ScannerState.new (source : List Char) : ScannerState :=
  { source := source, tokens := [], start := 0, current := 0, line := 1,
    in_comment_block := false, errors := [], printed := [] }

/-- src/scanner.rs Scanner::is_at_end. -/
def ScannerState.is_at_end (s : ScannerState) : Bool :=
  s.source.length ≤ s.current

/-- src/scanner.rs Scanner::peek: the char at current, or NUL at the end. -/
def ScannerState.peek (s : ScannerState) : Char :=
  s.source.getD s.current (Char.ofNat 0)

/-- src/scanner.rs Scanner::peek_next. -/
def ScannerState.peek_next (s : ScannerState) : Char :=
  if s.current + 1 < s.source.length then s.source.getD (s.current + 1) (Char.ofNat 0)
  else Char.ofNat 0

/-- src/scanner.rs Scanner::advance: consume and return the char at
current.  The source unwraps, so advancing at the end is a panic (none);
every call site is guarded by is_at_end. -/
def ScannerState.advance (s : ScannerState) : Option (Char × ScannerState) :=
  match s.source.get? s.current with
  | Option.none => Option.none
  | some c => some (c, { s with current := s.current + 1 })

/-- src/scanner.rs Scanner::matches: conditionally consume an expected
char. -/
def ScannerState.matches (s : ScannerState) (expected : Char) : Bool × ScannerState :=
  if s.source.length ≤ s.current then (false, s)
  else if s.source.getD s.current (Char.ofNat 0) ≠ expected then (false, s)
  else (true, { s with current := s.current + 1 })

/-- The lexeme self.source[self.start..self.current]. -/
def ScannerState.lexeme (s : ScannerState) : String :=
  String.mk ((s.source.drop s.start).take (s.current - s.start))

/-- src/scanner.rs Scanner::add_token. -/
def ScannerState.add_token (s : ScannerState) (tt : TokenType) (lit : Literal) :
    ScannerState :=
  { s with tokens := s.tokens ++ [Token.mk tt s.lexeme lit s.line] }

/-- src/scanner.rs Scanner::add_token_no_lit. -/
def ScannerState.add_token_no_lit (s : ScannerState) (tt : TokenType) : ScannerState :=
  s.add_token tt Literal.none

/-- src/scanner.rs Scanner::is_alpha. -/
def isAlphaChar (c : Char) : Bool :=
  (('a' ≤ c && c ≤ 'z') || ('A' ≤ c && c ≤ 'Z')) || c = '_'

/-- src/scanner.rs Scanner::is_alphanumeric. -/
def isAlphanumericChar (c : Char) : Bool :=
  ('0' ≤ c && c ≤ '9') || isAlphaChar c

/-- An ASCII digit test (char::is_ascii_digit). -/
def isDigitChar (c : Char) : Bool :=
  '0' ≤ c && c ≤ '9'

/-- src/scanner.rs Scanner::text2token: the fixed keyword table, defaulting
to Identifier. -/
def text2token (text : String) : TokenType :=
  if text = "and" then TokenType.andK
  else if text = "class" then TokenType.classK
  else if text = "else" then TokenType.elseK
  else if text = "false" then TokenType.falseK
  else if text = "for" then TokenType.forK
  else if text = "fn" then TokenType.fnK
  else if text = "if" then TokenType.ifK
  else if text = "nil" then TokenType.nilK
  else if text = "or" then TokenType.orK
  else if text = "print" then TokenType.printK
  else if text = "return" then TokenType.returnK
  else if text = "super" then TokenType.superK
  else if text = "this" then TokenType.thisK
  else if text = "true" then TokenType.trueK
  else if text = "var" then TokenType.varK
  else if text = "while" then TokenType.whileK
  else TokenType.identifier

/-- Numeric value of a digit string (whole part and optional fractional
part), as scanned by add_number.  Rust parses the lexeme with
str::parse::<f64>, which always succeeds on the digit shapes add_number
produces; rounding to the nearest f64 is not modelled (no theorem depends
on numeric literal values). -/
def parseNumChars (cs : List Char) : LoxNum :=
  let whole := cs.takeWhile (fun c => c ≠ '.')
  let frac := (cs.dropWhile (fun c => c ≠ '.')).drop 1
  let wv : ℚ := (whole.foldl (fun n c => 10 * n + (c.toNat - 48)) 0 : Nat)
  let fv : ℚ := (frac.foldl (fun n c => 10 * n + (c.toNat - 48)) 0 : Nat)
  LoxNum.val (wv + fv / ((10 : ℚ) ^ frac.length))

/-- src/scanner.rs Scanner::add_string: the body loop consuming chars up
to the closing quote, counting newlines. -/
def stringLoop : Nat → ScannerState → Option ScannerState
  | 0, _ => Option.none
  | fuel + 1, s =>
    if s.peek ≠ '"' && !s.is_at_end then
      let s := if s.peek = '\n' then { s with line := s.line + 1 } else s
      match s.advance with
      | Option.none => Option.none
      | some (_, s1) => stringLoop fuel s1
    else some s

/-- src/scanner.rs Scanner::add_string. -/
def add_string (fuel : Nat) (s : ScannerState) : Option ScannerState :=
  match stringLoop fuel s with
  | Option.none => Option.none
  | some s1 =>
    if s1.is_at_end then
      some { s1 with errors := s1.errors ++ [(s1.line, "Unterminated")] }
    else
      match s1.advance with
      | Option.none => Option.none
      | some (_, s2) =>
        let lit := String.mk ((s2.source.drop (s2.start + 1)).take (s2.current - 1 - (s2.start + 1)))
        some (s2.add_token TokenType.stringTok (Literal.string lit))

/-- The digit-consuming loop of add_number. -/
def digitLoop : Nat → ScannerState → Option ScannerState
  | 0, _ => Option.none
  | fuel + 1, s =>
    if isDigitChar s.peek then
      match s.advance with
      | Option.none => Option.none
      | some (_, s1) => digitLoop fuel s1
    else some s

/-- src/scanner.rs Scanner::add_number. -/
def add_number (fuel : Nat) (s : ScannerState) : Option ScannerState :=
  match digitLoop fuel s with
  | Option.none => Option.none
  | some s1 =>
    let step : Option ScannerState :=
      if s1.peek = '.' && isDigitChar s1.peek_next then
        match s1.advance with
        | Option.none => Option.none
        | some (_, s2) => digitLoop fuel s2
      else some s1
    match step with
    | Option.none => Option.none
    | some s3 =>
      some (s3.add_token TokenType.number
        (Literal.number (parseNumChars ((s3.source.drop s3.start).take (s3.current - s3.start)))))

/-- The alphanumeric-consuming loop of add_identifier. -/
def identLoop : Nat → ScannerState → Option ScannerState
  | 0, _ => Option.none
  | fuel + 1, s =>
    if isAlphanumericChar s.peek then
      match s.advance with
      | Option.none => Option.none
      | some (_, s1) => identLoop fuel s1
    else some s

/-- src/scanner.rs Scanner::add_identifier: consume the maximal
alphanumeric run, classify it with text2token, and emit the token. -/
def add_identifier (fuel : Nat) (s : ScannerState) : Option ScannerState :=
  match identLoop fuel s with
  | Option.none => Option.none
  | some s1 => some (s1.add_token_no_lit (text2token s1.lexeme))

/-- The line-comment consuming loop of the '/' arm. -/
def lineCommentLoop : Nat → ScannerState → Option ScannerState
  | 0, _ => Option.none
  | fuel + 1, s =>
    if s.peek ≠ '\n' && !s.is_at_end then
      match s.advance with
      | Option.none => Option.none
      | some (_, s1) => lineCommentLoop fuel s1
    else some s

/-- src/scanner.rs Scanner::scan_single_token.  Note the 'o' arm: when the
next char is 'r' it emits the Or token, otherwise it emits nothing at
all, silently dropping the consumed 'o'.  (The dbg! call in the '*' arm
is output-only and is not modelled.) -/
def scan_single_token (fuel : Nat) (s : ScannerState) : Option ScannerState :=
  match s.advance with
  | Option.none => Option.none
  | some (next_char, s) =>
    if next_char = '(' then some (s.add_token_no_lit TokenType.leftParen)
    else if next_char = ')' then some (s.add_token_no_lit TokenType.rightParen)
    else if next_char = '{' then some (s.add_token_no_lit TokenType.leftBrace)
    else if next_char = '}' then some (s.add_token_no_lit TokenType.rightBrace)
    else if next_char = ',' then some (s.add_token_no_lit TokenType.comma)
    else if next_char = '.' then some (s.add_token_no_lit TokenType.dot)
    else if next_char = '-' then some (s.add_token_no_lit TokenType.minus)
    else if next_char = '+' then some (s.add_token_no_lit TokenType.plus)
    else if next_char = ';' then some (s.add_token_no_lit TokenType.semicolon)
    else if next_char = '*' then
      -- the source also requires peek_prev() == '/', but peek_prev here is
      -- the just-consumed char, i.e. '*' itself, so the test never holds
      if s.current = 1 && s.source.getD (s.current - 1) (Char.ofNat 0) = '/' then
        some { s with in_comment_block := true }
      else some (s.add_token_no_lit TokenType.star)
    else if next_char = '!' then
      match s.matches '=' with
      | (true, s1) => some (s1.add_token_no_lit TokenType.bangEqual)
      | (false, s1) => some (s1.add_token_no_lit TokenType.bang)
    else if next_char = '=' then
      match s.matches '=' with
      | (true, s1) => some (s1.add_token_no_lit TokenType.equalEqual)
      | (false, s1) => some (s1.add_token_no_lit TokenType.equal)
    else if next_char = '>' then
      match s.matches '=' with
      | (true, s1) => some (s1.add_token_no_lit TokenType.greaterEqual)
      | (false, s1) => some (s1.add_token_no_lit TokenType.greater)
    else if next_char = '<' then
      match s.matches '=' with
      | (true, s1) => some (s1.add_token_no_lit TokenType.lessEqual)
      | (false, s1) => some (s1.add_token_no_lit TokenType.less)
    else if next_char = '/' then
      if s.peek = '*' then some { s with in_comment_block := true }
      else
        match s.matches '/' with
        | (true, s1) => lineCommentLoop fuel s1
        | (false, s1) => some (s1.add_token_no_lit TokenType.slash)
    else if next_char = ' ' || next_char = '\r' || next_char = '\t' then some s
    else if next_char = '\n' then some { s with line := s.line + 1 }
    else if next_char = '"' then add_string fuel s
    else if next_char = 'o' then
      match s.matches 'r' with
      | (true, s1) => some (s1.add_token_no_lit TokenType.orK)
      | (false, s1) => some s1
    else if isDigitChar next_char then add_number fuel s
    else if isAlphaChar next_char then add_identifier fuel s
    else some { s with printed := s.printed ++
      ["Unexpected character in line " ++ toString s.line] }

/-- The block-comment consuming loop inside scan_tokens. -/
def blockCommentLoop : Nat → ScannerState → Option ScannerState
  | 0, _ => Option.none
  | fuel + 1, s =>
    if !s.is_at_end then
      match s.advance with
      | Option.none => Option.none
      | some (c, s1) =>
        if c = '\n' then blockCommentLoop fuel { s1 with line := s1.line + 1 }
        else if c = '*' && s1.peek = '/' then
          some { s1 with in_comment_block := false }
        else blockCommentLoop fuel s1
    else some s

/-- src/scanner.rs Scanner::scan_tokens: the main scanning loop.  The
Bool result distinguishes the source returning Some(&tokens) (true) from
its early return None on an unclosed block comment (false); the state
carries the reported errors either way. -/
def scanLoop : Nat → ScannerState → Option (ScannerState × Bool)
  | 0, _ => Option.none
  | fuel + 1, s =>
    if !s.is_at_end then
      let s := { s with start := s.current }
      if s.in_comment_block then
        match blockCommentLoop fuel s with
        | Option.none => Option.none
        | some s1 =>
          if s1.in_comment_block then
            some ({ s1 with errors :=
              s1.errors ++ [(s1.line, "Block comment never closed.")] }, false)
          else
            match s1.advance with
            | Option.none => Option.none
            | some (_, s2) =>
              match scan_single_token fuel s2 with
              | Option.none => Option.none
              | some s3 => scanLoop fuel s3
      else
        match scan_single_token fuel s with
        | Option.none => Option.none
        | some s3 => scanLoop fuel s3
    else some (s, true)

/-- src/scanner.rs Scanner::scan_tokens, whole function: run the loop and,
unless the loop returned early, append the terminating Eof token.  The
first component is Some tokens exactly when the source returns
Some(&self.tokens). -/
def scan_tokens (fuel : Nat) (source : List Char) :
    Option (Option (List Token) × ScannerState) :=
  match scanLoop fuel (ScannerState.new source) with
  | Option.none => Option.none
  | some (s, false) => some (Option.none, s)
  | some (s, true) =>
    let s1 := { s with tokens :=
      s.tokens ++ [Token.mk TokenType.eof "" Literal.none s.line] }
    some (some s1.tokens, s1)

end Rustlox

namespace Rustlox

/-- src/error.rs: struct ParseError (a unit struct; fuel exhaustion in the
model also surfaces as this error, without touching the sink). -/
inductive ParseErr where
  | mk
deriving DecidableEq, Repr

/-- src/parser.rs: struct Parser, with the Lox::parse_error sink carried
alongside as (token, message) pairs. -/
structure ParserState where
  tokens : List Token
  current : Nat
  errors : List (Token × String)

/-- The stand-in read when indexing past the token list; the source
unwraps instead, but scanner output always ends in Eof and the parser
stops there, so on such inputs the default is never read. -/
def defaultToken : Token := Token.mk TokenType.eof "" Literal.none 0

/-- src/parser.rs Parser::peek. -/
def ParserState.peek (st : ParserState) : Token :=
  match st.tokens.get? st.current with
  | some t => t
  | Option.none => defaultToken

/-- src/parser.rs Parser::previous. -/
def ParserState.previous (st : ParserState) : Token :=
  match st.tokens.get? (st.current - 1) with
  | some t => t
  | Option.none => defaultToken

/-- src/parser.rs Parser::is_at_end. -/
def ParserState.is_at_end (st : ParserState) : Bool :=
  st.peek.token_type == TokenType.eof

/-- src/parser.rs Parser::check. -/
def ParserState.check (st : ParserState) (token_type : TokenType) : Bool :=
  if st.is_at_end then false else st.peek.token_type == token_type

/-- src/parser.rs Parser::advance (the returned token is recovered with
previous at the call sites that need it). -/
def ParserState.advanceP (st : ParserState) : ParserState :=
  if !st.is_at_end then { st with current := st.current + 1 } else st

/-- src/parser.rs Parser::is_match_advance: advance past the first
matching candidate type. -/
def is_match_advance (st : ParserState) : List TokenType → Bool × ParserState
  | [] => (false, st)
  | token_type :: rest =>
    if st.check token_type then (true, st.advanceP) else is_match_advance st rest

/-- src/parser.rs Parser::error / src/lox.rs Lox::parse_error: report at
the token and hand back a ParseError value. -/
def ParserState.report (st : ParserState) (tok : Token) (msg : String) : ParserState :=
  { st with errors := st.errors ++ [(tok, msg)] }

/-- src/parser.rs Parser::consume: advance past an expected token type or
report the given message at the current token. -/
def consume (st : ParserState) (token_type : TokenType) (message : String) :
    Except ParseErr Token × ParserState :=
  if st.check token_type then (Except.ok st.advanceP.previous, st.advanceP)
  else (Except.error ParseErr.mk, st.report st.peek message)

mutual

/-- src/parser.rs Parser::expression.  All parser functions take fuel and
consume one unit at entry; exhausted fuel surfaces as a ParseError value
without touching the sink (the source has no such case: fuel only models
non-termination). -/
def expression : Nat → ParserState → Except ParseErr Expr × ParserState
  | 0, st => (Except.error ParseErr.mk, st)
  | fuel + 1, st => assignment fuel st

/-- src/parser.rs Parser::assignment. -/
def assignment : Nat → ParserState → Except ParseErr Expr × ParserState
  | 0, st => (Except.error ParseErr.mk, st)
  | fuel + 1, st =>
    match orExpr fuel st with
    | (Except.error e, st1) => (Except.error e, st1)
    | (Except.ok expr, st1) =>
      let m := is_match_advance st1 [TokenType.equal]
      if m.1 then
        let equals := m.2.previous
        match assignment fuel m.2 with
        | (Except.error e, st2) => (Except.error e, st2)
        | (Except.ok value, st2) =>
          match expr with
          | Expr.variable name => (Except.ok (Expr.assign name value), st2)
          | _ => (Except.error ParseErr.mk, st2.report equals "Invalid assignment target.")
      else (Except.ok expr, st1)

/-- src/parser.rs Parser::or (logic_or). -/
def orExpr : Nat → ParserState → Except ParseErr Expr × ParserState
  | 0, st => (Except.error ParseErr.mk, st)
  | fuel + 1, st =>
    match andExpr fuel st with
    | (Except.error e, st1) => (Except.error e, st1)
    | (Except.ok expr, st1) => orLoop fuel st1 expr

/-- The while loop of Parser::or. -/
def orLoop : Nat → ParserState → Expr → Except ParseErr Expr × ParserState
  | 0, st, _ => (Except.error ParseErr.mk, st)
  | fuel + 1, st, expr =>
    let m := is_match_advance st [TokenType.orK]
    if m.1 then
      let operator := m.2.previous
      match andExpr fuel m.2 with
      | (Except.error e, st1) => (Except.error e, st1)
      | (Except.ok right, st1) => orLoop fuel st1 (Expr.logical expr operator right)
    else (Except.ok expr, st)

/-- src/parser.rs Parser::and (logic_and). -/
def andExpr : Nat → ParserState → Except ParseErr Expr × ParserState
  | 0, st => (Except.error ParseErr.mk, st)
  | fuel + 1, st =>
    match equality fuel st with
    | (Except.error e, st1) => (Except.error e, st1)
    | (Except.ok expr, st1) => andLoop fuel st1 expr

/-- The while loop of Parser::and. -/
def andLoop : Nat → ParserState → Expr → Except ParseErr Expr × ParserState
  | 0, st, _ => (Except.error ParseErr.mk, st)
  | fuel + 1, st, expr =>
    let m := is_match_advance st [TokenType.andK]
    if m.1 then
      let operator := m.2.previous
      match equality fuel m.2 with
      | (Except.error e, st1) => (Except.error e, st1)
      | (Except.ok right, st1) => andLoop fuel st1 (Expr.logical expr operator right)
    else (Except.ok expr, st)

/-- src/parser.rs Parser::equality. -/
def equality : Nat → ParserState → Except ParseErr Expr × ParserState
  | 0, st => (Except.error ParseErr.mk, st)
  | fuel + 1, st =>
    match comparison fuel st with
    | (Except.error e, st1) => (Except.error e, st1)
    | (Except.ok expr, st1) => equalityLoop fuel st1 expr

/-- The while loop of Parser::equality. -/
def equalityLoop : Nat → ParserState → Expr → Except ParseErr Expr × ParserState
  | 0, st, _ => (Except.error ParseErr.mk, st)
  | fuel + 1, st, expr =>
    let m := is_match_advance st [TokenType.bangEqual, TokenType.equalEqual]
    if m.1 then
      let operator := m.2.previous
      match comparison fuel m.2 with
      | (Except.error e, st1) => (Except.error e, st1)
      | (Except.ok right, st1) => equalityLoop fuel st1 (Expr.binary expr operator right)
    else (Except.ok expr, st)

/-- src/parser.rs Parser::comparison. -/
def comparison : Nat → ParserState → Except ParseErr Expr × ParserState
  | 0, st => (Except.error ParseErr.mk, st)
  | fuel + 1, st =>
    match term fuel st with
    | (Except.error e, st1) => (Except.error e, st1)
    | (Except.ok expr, st1) => comparisonLoop fuel st1 expr

/-- The while loop of Parser::comparison. -/
def comparisonLoop : Nat → ParserState → Expr → Except ParseErr Expr × ParserState
  | 0, st, _ => (Except.error ParseErr.mk, st)
  | fuel + 1, st, expr =>
    let m := is_match_advance st
      [TokenType.greater, TokenType.greaterEqual, TokenType.less, TokenType.lessEqual]
    if m.1 then
      let operator := m.2.previous
      match term fuel m.2 with
      | (Except.error e, st1) => (Except.error e, st1)
      | (Except.ok right, st1) => comparisonLoop fuel st1 (Expr.binary expr operator right)
    else (Except.ok expr, st)

/-- src/parser.rs Parser::term. -/
def term : Nat → ParserState → Except ParseErr Expr × ParserState
  | 0, st => (Except.error ParseErr.mk, st)
  | fuel + 1, st =>
    match factor fuel st with
    | (Except.error e, st1) => (Except.error e, st1)
    | (Except.ok expr, st1) => termLoop fuel st1 expr

/-- The while loop of Parser::term. -/
def termLoop : Nat → ParserState → Expr → Except ParseErr Expr × ParserState
  | 0, st, _ => (Except.error ParseErr.mk, st)
  | fuel + 1, st, expr =>
    let m := is_match_advance st [TokenType.minus, TokenType.plus]
    if m.1 then
      let operator := m.2.previous
      match factor fuel m.2 with
      | (Except.error e, st1) => (Except.error e, st1)
      | (Except.ok right, st1) => termLoop fuel st1 (Expr.binary expr operator right)
    else (Except.ok expr, st)

/-- src/parser.rs Parser::factor. -/
def factor : Nat → ParserState → Except ParseErr Expr × ParserState
  | 0, st => (Except.error ParseErr.mk, st)
  | fuel + 1, st =>
    match unary fuel st with
    | (Except.error e, st1) => (Except.error e, st1)
    | (Except.ok expr, st1) => factorLoop fuel st1 expr

/-- The while loop of Parser::factor. -/
def factorLoop : Nat → ParserState → Expr → Except ParseErr Expr × ParserState
  | 0, st, _ => (Except.error ParseErr.mk, st)
  | fuel + 1, st, expr =>
    let m := is_match_advance st [TokenType.slash, TokenType.star]
    if m.1 then
      let operator := m.2.previous
      match unary fuel m.2 with
      | (Except.error e, st1) => (Except.error e, st1)
      | (Except.ok right, st1) => factorLoop fuel st1 (Expr.binary expr operator right)
    else (Except.ok expr, st)

/-- src/parser.rs Parser::unary. -/
def unary : Nat → ParserState → Except ParseErr Expr × ParserState
  | 0, st => (Except.error ParseErr.mk, st)
  | fuel + 1, st =>
    let m := is_match_advance st [TokenType.bang, TokenType.minus]
    if m.1 then
      let operator := m.2.previous
      match unary fuel m.2 with
      | (Except.error e, st1) => (Except.error e, st1)
      | (Except.ok expr, st1) => (Except.ok (Expr.unary operator expr), st1)
    else call fuel st

/-- src/parser.rs Parser::call. -/
def call : Nat → ParserState → Except ParseErr Expr × ParserState
  | 0, st => (Except.error ParseErr.mk, st)
  | fuel + 1, st =>
    match primary fuel st with
    | (Except.error e, st1) => (Except.error e, st1)
    | (Except.ok expr, st1) => callLoop fuel st1 expr

/-- The loop of Parser::call: chained call suffixes. -/
def callLoop : Nat → ParserState → Expr → Except ParseErr Expr × ParserState
  | 0, st, _ => (Except.error ParseErr.mk, st)
  | fuel + 1, st, expr =>
    let m := is_match_advance st [TokenType.leftParen]
    if m.1 then
      match finish_call fuel m.2 expr with
      | (Except.error e, st1) => (Except.error e, st1)
      | (Except.ok expr1, st1) => callLoop fuel st1 expr1
    else (Except.ok expr, st)

/-- src/parser.rs Parser::finish_call (after the opening parenthesis was
consumed): parse the argument list, then require the closing
parenthesis. -/
def finish_call : Nat → ParserState → Expr → Except ParseErr Expr × ParserState
  | 0, st, _ => (Except.error ParseErr.mk, st)
  | fuel + 1, st, callee =>
    let step : Except ParseErr (List Expr) × ParserState :=
      if st.check TokenType.rightParen then (Except.ok [], st)
      else finishCallArgs fuel st []
    match step with
    | (Except.error e, st1) => (Except.error e, st1)
    | (Except.ok arguments, st1) =>
      match consume st1 TokenType.rightParen "Expect ')' after arguments." with
      | (Except.error e, st2) => (Except.error e, st2)
      | (Except.ok paren, st2) => (Except.ok (Expr.call callee paren arguments), st2)

/-- The argument loop of Parser::finish_call: before parsing each
argument, if 255 or more arguments have been collected, report the cap
error at the current token (non-fatally); then parse the argument and
continue while a comma follows. -/
def finishCallArgs : Nat → ParserState → List Expr → Except ParseErr (List Expr) × ParserState
  | 0, st, _ => (Except.error ParseErr.mk, st)
  | fuel + 1, st, arguments =>
    let st1 := if 255 ≤ arguments.length then
        st.report st.peek "Can't have more than 255 arguments."
      else st
    match expression fuel st1 with
    | (Except.error e, st2) => (Except.error e, st2)
    | (Except.ok e, st2) =>
      let arguments1 := arguments ++ [e]
      let m := is_match_advance st2 [TokenType.comma]
      if m.1 then finishCallArgs fuel m.2 arguments1
      else (Except.ok arguments1, m.2)

/-- src/parser.rs Parser::primary. -/
def primary : Nat → ParserState → Except ParseErr Expr × ParserState
  | 0, st => (Except.error ParseErr.mk, st)
  | fuel + 1, st =>
    let m1 := is_match_advance st [TokenType.number, TokenType.stringTok]
    if m1.1 then (Except.ok (Expr.literal m1.2.previous.literal), m1.2)
    else
    let m2 := is_match_advance st [TokenType.trueK]
    if m2.1 then (Except.ok (Expr.literal (Literal.boolean true)), m2.2)
    else
    let m3 := is_match_advance st [TokenType.falseK]
    if m3.1 then (Except.ok (Expr.literal (Literal.boolean false)), m3.2)
    else
    let m4 := is_match_advance st [TokenType.nilK]
    if m4.1 then (Except.ok (Expr.literal Literal.none), m4.2)
    else
    let m5 := is_match_advance st [TokenType.leftParen]
    if m5.1 then
      match expression fuel m5.2 with
      | (Except.error e, st1) => (Except.error e, st1)
      | (Except.ok expr, st1) =>
        match consume st1 TokenType.rightParen "Expect ')' after expression." with
        | (Except.error e, st2) => (Except.error e, st2)
        | (Except.ok _, st2) => (Except.ok (Expr.grouping expr), st2)
    else
    let m6 := is_match_advance st [TokenType.identifier]
    if m6.1 then (Except.ok (Expr.variable m6.2.previous), m6.2)
    else (Except.error ParseErr.mk, st.report st.peek "Expect expression.")

end

end Rustlox

namespace Rustlox

/-- A minimal interpreter state: one empty global environment, nothing
else. -/
def baseState : InterpState :=
  { envs := [Environment.new Option.none], classes := [], insts := [],
    globals := 0, environment := 0, locals := [], output := [],
    reported := [], hadRuntimeError := false }

/-- A bang token, as the scanner would produce for the source `!`. -/
def bangTok : Token := Token.mk TokenType.bang "!" Literal.none 1

/-- An identifier token with the given lexeme, carrying its line. -/
def identTok (s : String) (line : Nat) : Token :=
  Token.mk TokenType.identifier s Literal.none line

/-- A comma token. -/
def commaTok : Token := Token.mk TokenType.comma "," Literal.none 1

/-- A left parenthesis token. -/
def lparenTok : Token := Token.mk TokenType.leftParen "(" Literal.none 1

/-- A right parenthesis token. -/
def rparenTok : Token := Token.mk TokenType.rightParen ")" Literal.none 1

/-- An Eof token. -/
def eofTok : Token := Token.mk TokenType.eof "" Literal.none 1

/-- A two-statement program: an expression statement whose evaluation
raises a runtime error (`!1` — unary bang on a number), followed by a
print statement. -/
def progC1 : List (Option Stmt) :=
  [some (Stmt.expression (Expr.unary bangTok (Expr.literal (Literal.number (LoxNum.val 1))))),
   some (Stmt.print (Expr.literal (Literal.string "after")))]

/-- The tokens of arguments numbered k, k+1, ... (n of them): identifier
`a` tokens (the argument number carried as the line, so tokens of
distinct arguments are distinct) separated by commas. -/
def argTokens : Nat → Nat → List Token
  | _, 0 => []
  | k, 1 => [identTok "a" k]
  | k, n + 2 => identTok "a" k :: commaTok :: argTokens (k + 1) (n + 1)

/-- The token list of the call site `f(a, a, ..., a)` with n arguments,
terminated by Eof. -/
def callSiteTokens (n : Nat) : List Token :=
  identTok "f" 0 :: lparenTok :: argTokens 1 n ++ [rparenTok, eofTok]

/-- The expressions the parser builds for arguments numbered k, ... (n of
them). -/
def argExprs : Nat → Nat → List Expr
  | _, 0 => []
  | k, n + 1 => Expr.variable (identTok "a" k) :: argExprs (k + 1) n

/-- The cap error report for one argument: emitted exactly when c (the
number of arguments already collected when the loop reaches argument
number k) is at least 255, at that argument's leading token. -/
def capIf (c k : Nat) : List (Token × String) :=
  if 255 ≤ c then [(identTok "a" k, "Can't have more than 255 arguments.")] else []

/-- The cap error reports the argument loop emits when entered with c
arguments already collected and n arguments (numbered from k) still to
parse: one report per argument whose entry count is at least 255,
located at that argument's leading token. -/
def capErrors : Nat → Nat → Nat → List (Token × String)
  | _, _, 0 => []
  | c, k, n + 1 => capIf c k ++ capErrors (c + 1) (k + 1) n

/-- Comparison definition for the resolver claim: the index of the first
scope containing the name when scanning the scope stack from the
OUTERMOST side (index 0).  resolve_local's final recorded depth turns
out to correspond to this index, not to the innermost hit. -/
def firstHit (scopes : List Scope) (name : String) : Option Nat :=
  match scopes with
  | [] => Option.none
  | sc :: rest =>
    if mapContains sc name then some 0
    else (firstHit rest name).map (fun i => i + 1)

/-- A closure environment binding this to instance 0, as bind creates. -/
def closureEnvC6 : Environment :=
  (Environment.new Option.none).define "this" (Object.instanceRef 0)

/-- A state whose environment heap holds just that closure. -/
def stC6 : InterpState := { baseState with envs := [closureEnvC6] }

/-- A state with one class A that has no methods and no superclass. -/
def stC10 : InterpState :=
  { baseState with classes := [{ name := "A", superclass := Object.none, methods := [] }] }

end Rustlox

namespace Rustlox

/-- C5 counterexample: value equality is not reflexive on instances — an
instance value compared with itself (same heap reference) is false, so
instances do not compare by identity. -/
theorem C5_counterexample :
    is_equal (Object.instanceRef 0) (Object.instanceRef 0) = false := rfl

/-- C5 (amended): value equality is reflexive exactly for nil, booleans,
strings, and non-nan numbers; a callable, class, or instance value never
equals itself. -/
theorem C5_reflexivity_by_variant (v : Object) :
    is_equal v v =
      (match v with
       | Object.none => true
       | Object.boolean _ => true
       | Object.string _ => true
       | Object.number LoxNum.nan => false
       | Object.number (LoxNum.val _) => true
       | Object.callable _ => false
       | Object.classRef _ => false
       | Object.instanceRef _ => false) := by
  cases v with
  | string s => simp [is_equal]
  | number n =>
    cases n with
    | nan => rfl
    | val q => simp [is_equal, numEq]
  | boolean b => simp [is_equal]
  | callable c => rfl
  | classRef i => rfl
  | instanceRef i => rfl
  | none => rfl

/-- C4 counterexample: unary bang applied to a number raises the runtime
error Operand must be a boolean instead of succeeding via truthiness. -/
theorem C4_counterexample :
    evaluate 2 baseState
      (Expr.unary bangTok (Expr.literal (Literal.number (LoxNum.val 1)))) =
      some (Except.error (LoxError.runtimeError
        "Operand must be a boolean." (some bangTok)), baseState) := rfl

/-- C4 (amended): unary bang succeeds exactly on boolean operands,
returning the boolean negation; every non-boolean operand value (nil,
number, string, callable, class, instance) yields the runtime error
Operand must be a boolean — truthiness is never consulted. -/
theorem C4_bang_boolean_only (fuel : Nat) (st st1 : InterpState) (op : Token)
    (r : Expr) (v : Object)
    (hop : op.token_type = TokenType.bang)
    (hr : evaluate fuel st r = some (Except.ok v, st1)) :
    evaluate (fuel + 1) st (Expr.unary op r) =
      some ((match v with
             | Object.boolean b => Except.ok (Object.boolean !b)
             | _ => Except.error (LoxError.runtimeError
                 "Operand must be a boolean." (some op))), st1) := by
  simp only [evaluate, hr, hop]
  cases v <;> rfl

/-- C4 witness: the amended theorem applied at nil. -/
theorem C4_witness :
    evaluate 1 baseState (Expr.literal Literal.none) =
        some (Except.ok Object.none, baseState) ∧
    evaluate 2 baseState (Expr.unary bangTok (Expr.literal Literal.none)) =
      some (Except.error (LoxError.runtimeError
        "Operand must be a boolean." (some bangTok)), baseState) := by
  refine ⟨rfl, ?_⟩
  have h := C4_bang_boolean_only 1 baseState baseState bangTok
    (Expr.literal Literal.none) Object.none rfl rfl
  simpa using h

/-- C3 counterexample: a Variable expression with a recorded depth entry
whose target environment lacks the name evaluates to Ok(nil) — it
silently produces a value instead of the Undefined variable error. -/
theorem C3_counterexample :
    evaluate 1
      { baseState with locals := [(Expr.variable (identTok "x" 1), 0)] }
      (Expr.variable (identTok "x" 1)) =
      some (Except.ok Object.none,
        { baseState with locals := [(Expr.variable (identTok "x" 1), 0)] }) := rfl

/-- C3 (amended): on the depth-entry path, get_at never errors: whenever
the ancestor environment at the recorded distance exists but does not
contain the name, look_up_variable answers Ok(nil).  (The Undefined
variable error can only arise on the global, no-depth-entry path.) -/
theorem C3_get_at_missing_yields_nil (fuel : Nat) (st : InterpState)
    (name : Token) (expr : Expr) (d aid : Nat) (env : Environment)
    (hd : localsGet st.locals expr = some d)
    (ha : ancestor st.envs st.environment d = some aid)
    (he : st.envs.get? aid = some env)
    (hm : mapGet env.values name.lexeme = Option.none) :
    look_up_variable fuel st name expr = some (Except.ok Object.none) := by
  simp only [look_up_variable, hd, get_at, ha, he, hm]

/-- C3 witness: the amended theorem applied to a one-environment state
with an empty value map. -/
theorem C3_witness :
    localsGet [(Expr.variable (identTok "x" 1), 0)] (Expr.variable (identTok "x" 1)) = some 0 ∧
    look_up_variable 0
      { baseState with locals := [(Expr.variable (identTok "x" 1), 0)] }
      (identTok "x" 1) (Expr.variable (identTok "x" 1)) =
      some (Except.ok Object.none) := by
  refine ⟨rfl, ?_⟩
  exact C3_get_at_missing_yields_nil 0
    { baseState with locals := [(Expr.variable (identTok "x" 1), 0)] }
    (identTok "x" 1) (Expr.variable (identTok "x" 1)) 0 0
    (Environment.new Option.none) rfl rfl rfl rfl

/-- C7: execute_block restores the interpreter's current environment on
every exit path — normal completion, runtime error propagation, and
Return signal propagation are all covered by the two restoring arms. -/
theorem C7_execute_block_restores_environment (fuel : Nat) (st : InterpState)
    (stmts : List (Option Stmt)) (envId : Nat) (r : Except LoxError Unit)
    (st1 : InterpState)
    (h : execute_block fuel st stmts envId = some (r, st1)) :
    st1.environment = st.environment := by
  cases fuel with
  | zero => simp [execute_block] at h
  | succ f =>
    simp only [execute_block] at h
    cases hseq : executeSeq f { st with environment := envId } stmts with
    | none => rw [hseq] at h; cases h
    | some p =>
      obtain ⟨r2, st2⟩ := p
      rw [hseq] at h
      cases r2 with
      | error e =>
        simp only [] at h
        cases h
        rfl
      | ok u =>
        simp only [] at h
        cases h
        rfl

/-- C7 witness: the theorem applied to an empty block. -/
theorem C7_witness :
    execute_block 2 baseState [] 0 = some (Except.ok (), baseState) ∧
    baseState.environment = baseState.environment :=
  ⟨rfl, C7_execute_block_restores_environment 2 baseState [] 0
    (Except.ok ()) baseState rfl⟩

end Rustlox

namespace Rustlox

/-- C6: a user callable whose is_initializer flag is true always returns
the this bound at closure distance 0, for every outcome of the body —
normal fall-off, a bare or valued Return signal, and even a runtime
error (which call swallows). -/
theorem C6_initializer_returns_this (fuel : Nat) (st st2 : InterpState)
    (name : Token) (params : List Token) (body : List (Option Stmt))
    (closure : Nat) (args : List Object) (env : Environment)
    (r : Except LoxError Unit) (v : Object)
    (hp : defineParams (Environment.new (some closure)) params args = some env)
    (hb : execute_block fuel { st with envs := st.envs ++ [env] } body st.envs.length
            = some (r, st2))
    (hthis : get_at st2.envs closure 0 "this" = some (Except.ok v)) :
    callCallable (fuel + 1) st (LoxCallable.user name params body closure true) args
      = some (v, st2) := by
  simp only [callCallable, hp, allocEnv, hb, hthis]
  cases r with
  | ok u => rfl
  | error e => cases e <;> rfl

/-- C6 witness: an initializer with an empty body returns the bound
instance. -/
theorem C6_witness :
    execute_block 2 { stC6 with envs := stC6.envs ++ [Environment.new (some 0)] } [] 1
        = some (Except.ok (),
            { stC6 with envs := stC6.envs ++ [Environment.new (some 0)] }) ∧
    callCallable 3 stC6 (LoxCallable.user (identTok "init" 1) [] [] 0 true) []
      = some (Object.instanceRef 0,
          { stC6 with envs := stC6.envs ++ [Environment.new (some 0)] }) :=
  ⟨rfl, C6_initializer_returns_this 2 stC6
    { stC6 with envs := stC6.envs ++ [Environment.new (some 0)] }
    (identTok "init" 1) [] [] 0 [] (Environment.new (some 0))
    (Except.ok ()) (Object.instanceRef 0) rfl rfl rfl⟩

/-- C10: calling a class with no init method anywhere on its inheritance
walk returns a fresh instance of the class for any argument vector and
any argument count — no arity check and no runtime error. -/
theorem C10_class_call_without_init (fuel : Nat) (st : InterpState)
    (paren : Token) (cid : Nat) (vals : List Object) (argCount : Nat)
    (c : LoxClass)
    (hc : st.classes.get? cid = some c)
    (hinit : find_method fuel st.classes c "init" = some Option.none) :
    callObject (fuel + 1) st paren (Object.classRef cid) vals argCount =
      some (Except.ok (Object.instanceRef st.insts.length),
        { st with insts := st.insts ++ [{ cls := cid, fields := [] }] }) := by
  simp only [callObject, hc, hinit]

/-- C10 witness: class A with no methods, called with three arguments. -/
theorem C10_witness :
    find_method 5 stC10.classes
        { name := "A", superclass := Object.none, methods := [] } "init"
        = some Option.none ∧
    callObject 6 stC10 rparenTok (Object.classRef 0)
        [Object.none, Object.none, Object.none] 3 =
      some (Except.ok (Object.instanceRef 0),
        { stC10 with insts := [{ cls := 0, fields := [] }] }) :=
  ⟨rfl, C10_class_call_without_init 5 stC10 rparenTok 0
    [Object.none, Object.none, Object.none] 3
    { name := "A", superclass := Object.none, methods := [] } rfl rfl⟩

/-- C1 counterexample: a program whose first statement raises a runtime
error still executes its second statement — the print after the erroring
expression statement runs and produces output, while the error is
reported and the flag set. -/
theorem C1_counterexample :
    (interpret 5 baseState progC1).map InterpState.output = some ["after"] ∧
    (interpret 5 baseState progC1).map InterpState.hadRuntimeError = some true :=
  ⟨rfl, rfl⟩

/-- C1 (amended): a runtime error does not end execution of the program:
whatever a statement's outcome (including a propagated runtime error),
the interpret loop continues with the remaining statements. -/
theorem C1_interpret_continues_after_error (fuel : Nat) (st st1 : InterpState)
    (s : Stmt) (rest : List (Option Stmt)) (r : Except LoxError Unit)
    (h : execute fuel st s = some (r, st1)) :
    interpret fuel st (some s :: rest) = interpret fuel st1 rest := by
  simp only [interpret, h]

/-- C1 witness: a print statement whose evaluation errors propagates an
error result to interpret, and interpret proceeds with the rest. -/
theorem C1_witness :
    execute 3 baseState
        (Stmt.print (Expr.unary bangTok (Expr.literal (Literal.number (LoxNum.val 1)))))
      = some (Except.error (LoxError.runtimeError
          "Operand must be a boolean." (some bangTok)), baseState) ∧
    interpret 3 baseState
        (some (Stmt.print (Expr.unary bangTok (Expr.literal (Literal.number (LoxNum.val 1)))))
          :: [some (Stmt.print (Expr.literal (Literal.string "after")))])
      = interpret 3 baseState [some (Stmt.print (Expr.literal (Literal.string "after")))] :=
  ⟨rfl, C1_interpret_continues_after_error 3 baseState baseState
    (Stmt.print (Expr.unary bangTok (Expr.literal (Literal.number (LoxNum.val 1)))))
    [some (Stmt.print (Expr.literal (Literal.string "after")))]
    (Except.error (LoxError.runtimeError "Operand must be a boolean." (some bangTok))) rfl⟩

end Rustlox

namespace Rustlox

/-- C8: the scanner's special-cased 'o' arm breaks identifier scanning for
every identifier starting with o.  Evidence: the source on scans to a
single Identifier token with lexeme n (the o is consumed and silently
dropped), the source o scans to no token at all, and the source orange
scans to an Or keyword token followed by an Identifier ange; only the
exact keyword or is scanned as the claim describes. -/
theorem C8_scanner_o_prefix_bug :
    (scan_tokens 20 "on".toList).map Prod.fst =
      some (some [Token.mk TokenType.identifier "n" Literal.none 1,
                  Token.mk TokenType.eof "" Literal.none 1]) ∧
    (scan_tokens 20 "o".toList).map Prod.fst =
      some (some [Token.mk TokenType.eof "" Literal.none 1]) ∧
    (scan_tokens 20 "orange".toList).map Prod.fst =
      some (some [Token.mk TokenType.orK "or" Literal.none 1,
                  Token.mk TokenType.identifier "ange" Literal.none 1,
                  Token.mk TokenType.eof "" Literal.none 1]) ∧
    (scan_tokens 20 "or".toList).map Prod.fst =
      some (some [Token.mk TokenType.orK "or" Literal.none 1,
                  Token.mk TokenType.eof "" Literal.none 1]) :=
  ⟨rfl, rfl, rfl, rfl⟩

end Rustlox

namespace Rustlox

/-- Lookup after insert finds the inserted binding, provided the key is
reflexive under the derived expression equality (true for every key the
resolver actually uses; only nan literals break reflexivity). -/
theorem localsGet_localsInsert (acc : List (Expr × Nat)) (e : Expr) (d : Nat)
    (h : exprEq e e = true) :
    localsGet (localsInsert acc e d) e = some d := by
  induction acc with
  | nil => simp [localsInsert, localsGet, h]
  | cons kv rest ih =>
    obtain ⟨k, d0⟩ := kv
    by_cases hk : exprEq k e = true
    · simp [localsInsert, hk, localsGet, h]
    · have hk' : exprEq k e = false := by simpa using hk
      simp [localsInsert, localsGet, hk', ih]

/-- Unfolding resolve_local over a cons: the scan visits the inner scopes
first and the head (outermost) scope last, so the head's insert, when it
hits, lands on top of the recursive result. -/
theorem resolve_local_cons (sc : Scope) (rest : List Scope)
    (locals : List (Expr × Nat)) (expr : Expr) (name : Token) :
    resolve_local (sc :: rest) locals expr name =
      (if mapContains sc name.lexeme
       then localsInsert (resolve_local rest locals expr name) expr rest.length
       else resolve_local rest locals expr name) := by
  have hrest : resolve_local rest locals expr name =
      List.foldr (fun (i : Nat) (acc : List (Expr × Nat)) =>
        match rest.get? i with
        | some scope =>
          if mapContains scope name.lexeme then
            localsInsert acc expr (rest.length - 1 - i)
          else acc
        | Option.none => acc) locals (List.range rest.length) := by
    show ((List.range rest.length).reverse.foldl _ locals) = _
    rw [List.foldl_reverse]
  have hbody : (fun (i : Nat) (acc : List (Expr × Nat)) =>
      match (sc :: rest).get? (i + 1) with
      | some scope =>
        if mapContains scope name.lexeme then
          localsInsert acc expr (rest.length + 1 - 1 - (i + 1))
        else acc
      | Option.none => acc) =
      (fun (i : Nat) (acc : List (Expr × Nat)) =>
      match rest.get? i with
      | some scope =>
        if mapContains scope name.lexeme then
          localsInsert acc expr (rest.length - 1 - i)
        else acc
      | Option.none => acc) := by
    funext i acc
    have hlen : rest.length + 1 - 1 - (i + 1) = rest.length - 1 - i := by omega
    simp only [List.get?_cons_succ, hlen]
  show ((List.range (sc :: rest).length).reverse.foldl _ locals) = _
  rw [List.foldl_reverse]
  simp only [List.length_cons, List.range_succ_eq_map, List.foldr_cons, List.foldr_map,
             Nat.succ_eq_add_one]
  rw [hbody, ← hrest]
  simp only [List.get?_cons_zero, Nat.add_sub_cancel, Nat.sub_zero]

end Rustlox

namespace Rustlox

/-- C2 counterexample: with two scopes both containing the name (the
inner one shadowing), the side-table records depth 1 — the claim's
innermost-first rule would record depth 0 (stack size 2, innermost index
1). -/
theorem C2_counterexample :
    localsGet
      (resolve_local [[("x", true)], [("x", true)]] []
        (Expr.variable (identTok "x" 1)) (identTok "x" 1))
      (Expr.variable (identTok "x" 1)) = some 1 ∧
    (some 1 : Option Nat) ≠ some 0 :=
  ⟨rfl, by decide⟩

/-- C2 (amended): resolve_local records a depth on every hit, scanning
from innermost outward with each insert overwriting the previous, so the
depth left in the side-table is (stack_size-1-i) for the OUTERMOST scope
index i containing the name (firstHit); when no scope contains the name
the side-table entry is unchanged.  The reflexivity hypothesis on the
key's derived equality holds for every key the resolver uses (only nan
number literals break it). -/
theorem C2_depth_is_outermost_hit (scopes : List Scope)
    (locals : List (Expr × Nat)) (expr : Expr) (name : Token)
    (h : exprEq expr expr = true) :
    localsGet (resolve_local scopes locals expr name) expr =
      (match firstHit scopes name.lexeme with
       | some i => some (scopes.length - 1 - i)
       | Option.none => localsGet locals expr) := by
  induction scopes with
  | nil => rfl
  | cons sc rest ih =>
    rw [resolve_local_cons]
    by_cases hc : mapContains sc name.lexeme = true
    · rw [if_pos hc]
      rw [localsGet_localsInsert _ _ _ h]
      simp [firstHit, hc]
    · have hc' : mapContains sc name.lexeme = false := by simpa using hc
      rw [if_neg (by simp [hc'])]
      rw [ih]
      simp only [firstHit, hc', Bool.false_eq_true, if_false]
      cases hfh : firstHit rest name.lexeme with
      | none => simp
      | some i =>
        simp only [Option.map_some', List.length_cons]
        congr 1
        omega

/-- C2 witness: the amended theorem applied to the shadowing example;
the outermost hit is index 0, giving depth 1. -/
theorem C2_witness :
    exprEq (Expr.variable (identTok "x" 1)) (Expr.variable (identTok "x" 1)) = true ∧
    localsGet
      (resolve_local [[("x", true)], [("x", true)]] []
        (Expr.variable (identTok "x" 1)) (identTok "x" 1))
      (Expr.variable (identTok "x" 1)) = some 1 := by
  refine ⟨by decide, ?_⟩
  have h := C2_depth_is_outermost_hit [[("x", true)], [("x", true)]] []
    (Expr.variable (identTok "x" 1)) (identTok "x" 1) (by decide)
  simpa using h

end Rustlox

namespace Rustlox

end Rustlox

namespace Rustlox

theorem check_ne (st : ParserState) (tt : TokenType)
    (h : st.peek.token_type ≠ tt) : st.check tt = false := by
  by_cases he : st.is_at_end
  · simp [ParserState.check, he]
  · simp [ParserState.check, he, beq_iff_eq, h]

theorem is_match_advance_one_false (st : ParserState) (t1 : TokenType)
    (h1 : st.check t1 = false) :
    is_match_advance st [t1] = (false, st) := by
  simp [is_match_advance, h1]

theorem is_match_advance_one_true (st : ParserState) (t1 : TokenType)
    (h1 : st.check t1 = true) :
    is_match_advance st [t1] = (true, st.advanceP) := by
  simp [is_match_advance, h1]

theorem is_match_advance_two_false (st : ParserState) (t1 t2 : TokenType)
    (h1 : st.check t1 = false) (h2 : st.check t2 = false) :
    is_match_advance st [t1, t2] = (false, st) := by
  simp [is_match_advance, h1, h2]

theorem is_match_advance_four_false (st : ParserState) (t1 t2 t3 t4 : TokenType)
    (h1 : st.check t1 = false) (h2 : st.check t2 = false)
    (h3 : st.check t3 = false) (h4 : st.check t4 = false) :
    is_match_advance st [t1, t2, t3, t4] = (false, st) := by
  simp [is_match_advance, h1, h2, h3, h4]

theorem primary_ident (fuel : Nat) (tks : List Token) (p : Nat)
    (errs : List (Token × String)) (t : Token)
    (ht : tks[p]? = some t) (hid : t.token_type = TokenType.identifier) :
    primary (fuel + 1) ⟨tks, p, errs⟩ = (Except.ok (Expr.variable t), ⟨tks, p + 1, errs⟩) := by
  have hp : (⟨tks, p, errs⟩ : ParserState).peek = t := by
    simp [ParserState.peek, ht]
  have hcp : ∀ tt : TokenType, tt ≠ TokenType.identifier →
      ParserState.check ⟨tks, p, errs⟩ tt = false := by
    intro tt hA
    apply check_ne
    rw [hp, hid]
    exact fun hh => hA hh.symm
  have hcid : ParserState.check ⟨tks, p, errs⟩ TokenType.identifier = true := by
    simp [ParserState.check, ParserState.is_at_end, hp, hid, beq_iff_eq]
  have hadv : ParserState.advanceP ⟨tks, p, errs⟩ = ⟨tks, p + 1, errs⟩ := by
    simp [ParserState.advanceP, ParserState.is_at_end, hp, hid, beq_iff_eq]
  have hprev : ParserState.previous ⟨tks, p + 1, errs⟩ = t := by
    simp [ParserState.previous, ht]
  simp only [primary]
  rw [is_match_advance_two_false _ TokenType.number TokenType.stringTok
    (hcp TokenType.number (by decide)) (hcp TokenType.stringTok (by decide))]
  rw [is_match_advance_one_false _ TokenType.trueK (hcp TokenType.trueK (by decide))]
  rw [is_match_advance_one_false _ TokenType.falseK (hcp TokenType.falseK (by decide))]
  rw [is_match_advance_one_false _ TokenType.nilK (hcp TokenType.nilK (by decide))]
  rw [is_match_advance_one_false _ TokenType.leftParen (hcp TokenType.leftParen (by decide))]
  rw [is_match_advance_one_true _ TokenType.identifier hcid]
  simp [hadv, hprev]

theorem callLoop_exit (fuel : Nat) (st : ParserState) (e : Expr)
    (h : st.check TokenType.leftParen = false) :
    callLoop (fuel + 1) st e = (Except.ok e, st) := by
  simp only [callLoop]
  rw [is_match_advance_one_false st TokenType.leftParen h]
  rfl

theorem factorLoop_exit (fuel : Nat) (st : ParserState) (e : Expr)
    (h1 : st.check TokenType.slash = false) (h2 : st.check TokenType.star = false) :
    factorLoop (fuel + 1) st e = (Except.ok e, st) := by
  simp only [factorLoop]
  rw [is_match_advance_two_false st TokenType.slash TokenType.star h1 h2]
  rfl

theorem termLoop_exit (fuel : Nat) (st : ParserState) (e : Expr)
    (h1 : st.check TokenType.minus = false) (h2 : st.check TokenType.plus = false) :
    termLoop (fuel + 1) st e = (Except.ok e, st) := by
  simp only [termLoop]
  rw [is_match_advance_two_false st TokenType.minus TokenType.plus h1 h2]
  rfl

theorem comparisonLoop_exit (fuel : Nat) (st : ParserState) (e : Expr)
    (h1 : st.check TokenType.greater = false)
    (h2 : st.check TokenType.greaterEqual = false)
    (h3 : st.check TokenType.less = false)
    (h4 : st.check TokenType.lessEqual = false) :
    comparisonLoop (fuel + 1) st e = (Except.ok e, st) := by
  simp only [comparisonLoop]
  rw [is_match_advance_four_false st TokenType.greater TokenType.greaterEqual
    TokenType.less TokenType.lessEqual h1 h2 h3 h4]
  rfl

theorem equalityLoop_exit (fuel : Nat) (st : ParserState) (e : Expr)
    (h1 : st.check TokenType.bangEqual = false)
    (h2 : st.check TokenType.equalEqual = false) :
    equalityLoop (fuel + 1) st e = (Except.ok e, st) := by
  simp only [equalityLoop]
  rw [is_match_advance_two_false st TokenType.bangEqual TokenType.equalEqual h1 h2]
  rfl

theorem andLoop_exit (fuel : Nat) (st : ParserState) (e : Expr)
    (h : st.check TokenType.andK = false) :
    andLoop (fuel + 1) st e = (Except.ok e, st) := by
  simp only [andLoop]
  rw [is_match_advance_one_false st TokenType.andK h]
  rfl

theorem orLoop_exit (fuel : Nat) (st : ParserState) (e : Expr)
    (h : st.check TokenType.orK = false) :
    orLoop (fuel + 1) st e = (Except.ok e, st) := by
  simp only [orLoop]
  rw [is_match_advance_one_false st TokenType.orK h]
  rfl

theorem expression_ident (fuel : Nat) (tks : List Token) (p : Nat)
    (errs : List (Token × String)) (t t2 : Token)
    (hfuel : 11 ≤ fuel)
    (ht : tks[p]? = some t) (hid : t.token_type = TokenType.identifier)
    (ht2 : tks[p + 1]? = some t2)
    (hnext : t2.token_type = TokenType.comma ∨ t2.token_type = TokenType.rightParen) :
    expression fuel ⟨tks, p, errs⟩ = (Except.ok (Expr.variable t), ⟨tks, p + 1, errs⟩) := by
  obtain ⟨f, rfl⟩ : ∃ f, fuel = f + 11 := ⟨fuel - 11, by omega⟩
  have hp1 : (⟨tks, p + 1, errs⟩ : ParserState).peek = t2 := by
    simp [ParserState.peek, ht2]
  have hc : ∀ tt : TokenType, tt ≠ TokenType.comma → tt ≠ TokenType.rightParen →
      ParserState.check ⟨tks, p + 1, errs⟩ tt = false := by
    intro tt hA hB
    apply check_ne
    rw [hp1]
    rcases hnext with h2 | h2 <;> rw [h2]
    · exact fun hh => hA hh.symm
    · exact fun hh => hB hh.symm
  have hp : (⟨tks, p, errs⟩ : ParserState).peek = t := by
    simp [ParserState.peek, ht]
  have hcp : ∀ tt : TokenType, tt ≠ TokenType.identifier →
      ParserState.check ⟨tks, p, errs⟩ tt = false := by
    intro tt hA
    apply check_ne
    rw [hp, hid]
    exact fun hh => hA hh.symm
  have hprim : primary (f + 1) ⟨tks, p, errs⟩ =
      (Except.ok (Expr.variable t), ⟨tks, p + 1, errs⟩) :=
    primary_ident f tks p errs t ht hid
  have hcall : call (f + 2) ⟨tks, p, errs⟩ =
      (Except.ok (Expr.variable t), ⟨tks, p + 1, errs⟩) := by
    show call ((f + 1) + 1) _ = _
    simp only [call]
    rw [hprim]
    exact callLoop_exit f _ _ (hc TokenType.leftParen (by decide) (by decide))
  have hunary : unary (f + 3) ⟨tks, p, errs⟩ =
      (Except.ok (Expr.variable t), ⟨tks, p + 1, errs⟩) := by
    show unary ((f + 2) + 1) _ = _
    simp only [unary]
    rw [is_match_advance_two_false _ TokenType.bang TokenType.minus
      (hcp TokenType.bang (by decide)) (hcp TokenType.minus (by decide))]
    simpa using hcall
  have hfactor : factor (f + 4) ⟨tks, p, errs⟩ =
      (Except.ok (Expr.variable t), ⟨tks, p + 1, errs⟩) := by
    show factor ((f + 3) + 1) _ = _
    simp only [factor]
    rw [hunary]
    exact factorLoop_exit (f + 2) _ _ (hc TokenType.slash (by decide) (by decide))
      (hc TokenType.star (by decide) (by decide))
  have hterm : term (f + 5) ⟨tks, p, errs⟩ =
      (Except.ok (Expr.variable t), ⟨tks, p + 1, errs⟩) := by
    show term ((f + 4) + 1) _ = _
    simp only [term]
    rw [hfactor]
    exact termLoop_exit (f + 3) _ _ (hc TokenType.minus (by decide) (by decide))
      (hc TokenType.plus (by decide) (by decide))
  have hcomp : comparison (f + 6) ⟨tks, p, errs⟩ =
      (Except.ok (Expr.variable t), ⟨tks, p + 1, errs⟩) := by
    show comparison ((f + 5) + 1) _ = _
    simp only [comparison]
    rw [hterm]
    exact comparisonLoop_exit (f + 4) _ _ (hc TokenType.greater (by decide) (by decide))
      (hc TokenType.greaterEqual (by decide) (by decide))
      (hc TokenType.less (by decide) (by decide))
      (hc TokenType.lessEqual (by decide) (by decide))
  have heq : equality (f + 7) ⟨tks, p, errs⟩ =
      (Except.ok (Expr.variable t), ⟨tks, p + 1, errs⟩) := by
    show equality ((f + 6) + 1) _ = _
    simp only [equality]
    rw [hcomp]
    exact equalityLoop_exit (f + 5) _ _ (hc TokenType.bangEqual (by decide) (by decide))
      (hc TokenType.equalEqual (by decide) (by decide))
  have hand : andExpr (f + 8) ⟨tks, p, errs⟩ =
      (Except.ok (Expr.variable t), ⟨tks, p + 1, errs⟩) := by
    show andExpr ((f + 7) + 1) _ = _
    simp only [andExpr]
    rw [heq]
    exact andLoop_exit (f + 6) _ _ (hc TokenType.andK (by decide) (by decide))
  have hor : orExpr (f + 9) ⟨tks, p, errs⟩ =
      (Except.ok (Expr.variable t), ⟨tks, p + 1, errs⟩) := by
    show orExpr ((f + 8) + 1) _ = _
    simp only [orExpr]
    rw [hand]
    exact orLoop_exit (f + 7) _ _ (hc TokenType.orK (by decide) (by decide))
  show assignment ((f + 9) + 1) ⟨tks, p, errs⟩ = _
  rw [assignment, hor]
  split
  · rename_i e1 st1 heq2
    cases heq2
  · rename_i expr st1 heq2
    cases heq2
    rw [is_match_advance_one_false _ TokenType.equal (hc TokenType.equal (by decide) (by decide))]
    rfl

theorem finishCallArgs_last (f p k : Nat) (errs : List (Token × String))
    (args : List Expr) (tks : List Token)
    (hf : 11 ≤ f)
    (ht : tks[p]? = some (identTok "a" k))
    (ht2 : tks[p + 1]? = some rparenTok) :
    finishCallArgs (f + 1) ⟨tks, p, errs⟩ args =
      (Except.ok (args ++ [Expr.variable (identTok "a" k)]),
       ⟨tks, p + 1, errs ++ capIf args.length k⟩) := by
  simp only [finishCallArgs]
  have hst1 : (if 255 ≤ args.length then
      ParserState.report ⟨tks, p, errs⟩ (ParserState.peek ⟨tks, p, errs⟩)
        "Can't have more than 255 arguments."
      else (⟨tks, p, errs⟩ : ParserState)) =
      (⟨tks, p, errs ++ capIf args.length k⟩ : ParserState) := by
    have hpk : (⟨tks, p, errs⟩ : ParserState).peek = identTok "a" k := by
      simp [ParserState.peek, ht]
    by_cases hcap : 255 ≤ args.length
    · simp [if_pos hcap, ParserState.report, hpk, capIf, hcap]
    · simp [if_neg hcap, capIf, hcap]
  rw [hst1]
  rw [expression_ident f tks p (errs ++ capIf args.length k) (identTok "a" k)
    rparenTok hf ht rfl ht2 (Or.inr rfl)]
  split
  · rename_i e1 st1 heq2
    cases heq2
  · rename_i e1 st1 heq2
    cases heq2
    have hck : ParserState.check ⟨tks, p + 1, errs ++ capIf args.length k⟩
        TokenType.comma = false := by
      apply check_ne
      have : (⟨tks, p + 1, errs ++ capIf args.length k⟩ : ParserState).peek = rparenTok := by
        simp [ParserState.peek, ht2]
      rw [this]
      decide
    rw [is_match_advance_one_false _ TokenType.comma hck]
    rfl

theorem finishCallArgs_step (f p k : Nat) (errs : List (Token × String))
    (args : List Expr) (tks : List Token)
    (hf : 11 ≤ f)
    (ht : tks[p]? = some (identTok "a" k))
    (ht2 : tks[p + 1]? = some commaTok) :
    finishCallArgs (f + 1) ⟨tks, p, errs⟩ args =
      finishCallArgs f ⟨tks, p + 2, errs ++ capIf args.length k⟩
        (args ++ [Expr.variable (identTok "a" k)]) := by
  simp only [finishCallArgs]
  have hst1 : (if 255 ≤ args.length then
      ParserState.report ⟨tks, p, errs⟩ (ParserState.peek ⟨tks, p, errs⟩)
        "Can't have more than 255 arguments."
      else (⟨tks, p, errs⟩ : ParserState)) =
      (⟨tks, p, errs ++ capIf args.length k⟩ : ParserState) := by
    have hpk : (⟨tks, p, errs⟩ : ParserState).peek = identTok "a" k := by
      simp [ParserState.peek, ht]
    by_cases hcap : 255 ≤ args.length
    · simp [if_pos hcap, ParserState.report, hpk, capIf, hcap]
    · simp [if_neg hcap, capIf, hcap]
  rw [hst1]
  rw [expression_ident f tks p (errs ++ capIf args.length k) (identTok "a" k)
    commaTok hf ht rfl ht2 (Or.inl rfl)]
  split
  · rename_i e1 st1 heq2
    cases heq2
  · rename_i e1 st1 heq2
    cases heq2
    have hpk2 : (⟨tks, p + 1, errs ++ capIf args.length k⟩ : ParserState).peek = commaTok := by
      simp [ParserState.peek, ht2]
    have hck : ParserState.check ⟨tks, p + 1, errs ++ capIf args.length k⟩
        TokenType.comma = true := by
      simp [ParserState.check, ParserState.is_at_end, hpk2, beq_iff_eq, commaTok]
    have hadv2 : ParserState.advanceP ⟨tks, p + 1, errs ++ capIf args.length k⟩ =
        ⟨tks, p + 2, errs ++ capIf args.length k⟩ := by
      simp [ParserState.advanceP, ParserState.is_at_end, hpk2, beq_iff_eq, commaTok]
    rw [is_match_advance_one_true _ TokenType.comma hck, hadv2]
    rfl

theorem finishCallArgs_spec (n : Nat) : ∀ (fuel p k : Nat) (errs : List (Token × String))
    (args : List Expr) (tks : List Token),
    1 ≤ n → n + 11 ≤ fuel →
    (∀ j, j < n → tks[p + 2 * j]? = some (identTok "a" (k + j))) →
    (∀ j, j + 1 < n → tks[p + 2 * j + 1]? = some commaTok) →
    tks[p + 2 * (n - 1) + 1]? = some rparenTok →
    finishCallArgs fuel ⟨tks, p, errs⟩ args =
      (Except.ok (args ++ argExprs k n),
       ⟨tks, p + 2 * n - 1, errs ++ capErrors args.length k n⟩) := by
  induction n with
  | zero =>
    intro fuel p k errs args tks h1 _ _ _ _
    omega
  | succ m ih =>
    intro fuel p k errs args tks h1 hf H1 H2 H3
    obtain ⟨f, rfl⟩ : ∃ f, fuel = f + 1 := ⟨fuel - 1, by omega⟩
    have ht0 : tks[p]? = some (identTok "a" k) := by
      have h := H1 0 (by omega)
      simpa using h
    by_cases hm : m = 0
    · subst hm
      have ht2 : tks[p + 1]? = some rparenTok := by
        have h := H3
        rw [show p + 2 * (0 + 1 - 1) + 1 = p + 1 by omega] at h
        exact h
      rw [finishCallArgs_last f p k errs args tks (by omega) ht0 ht2]
      simp only [argExprs, capErrors, List.append_nil]
      rw [show p + 2 * (0 + 1) - 1 = p + 1 by omega]
    · have hm1 : 1 ≤ m := by omega
      have ht2 : tks[p + 1]? = some commaTok := by
        have h := H2 0 (by omega)
        simpa using h
      rw [finishCallArgs_step f p k errs args tks (by omega) ht0 ht2]
      have H1m : ∀ j, j < m → tks[(p + 2) + 2 * j]? = some (identTok "a" ((k + 1) + j)) := by
        intro j hj
        have h := H1 (j + 1) (by omega)
        rw [show p + 2 * (j + 1) = p + 2 + 2 * j by omega] at h
        rw [show k + (j + 1) = k + 1 + j by omega] at h
        exact h
      have H2m : ∀ j, j + 1 < m → tks[(p + 2) + 2 * j + 1]? = some commaTok := by
        intro j hj
        have h := H2 (j + 1) (by omega)
        rw [show p + 2 * (j + 1) + 1 = p + 2 + 2 * j + 1 by omega] at h
        exact h
      have H3m : tks[(p + 2) + 2 * (m - 1) + 1]? = some rparenTok := by
        have h := H3
        rw [show p + 2 * (m + 1 - 1) + 1 = p + 2 + 2 * (m - 1) + 1 by omega] at h
        exact h
      rw [ih f (p + 2) (k + 1) (errs ++ capIf args.length k)
        (args ++ [Expr.variable (identTok "a" k)]) tks hm1 (by omega) H1m H2m H3m]
      simp only [argExprs, capErrors, List.length_append, List.length_cons,
        List.length_nil, List.append_assoc, List.cons_append, List.nil_append,
        List.singleton_append]
      rw [show p + 2 + 2 * m - 1 = p + 2 * (m + 1) - 1 by omega]

theorem argTokens_length : ∀ (n k : Nat), 1 ≤ n → (argTokens k n).length = 2 * n - 1 := by
  intro n
  induction n with
  | zero => intro k h; omega
  | succ m ih =>
    intro k _
    by_cases hm : m = 0
    · subst hm
      simp [argTokens]
    · obtain ⟨m1, rfl⟩ : ∃ m1, m = m1 + 1 := ⟨m - 1, by omega⟩
      show (argTokens k (m1 + 2)).length = 2 * (m1 + 1 + 1) - 1
      rw [show argTokens k (m1 + 2) =
        identTok "a" k :: commaTok :: argTokens (k + 1) (m1 + 1) from rfl]
      simp only [List.length_cons]
      rw [ih (k + 1) (by omega)]
      omega

theorem argTokens_get_even : ∀ (j n k : Nat), j < n →
    (argTokens k n)[2 * j]? = some (identTok "a" (k + j)) := by
  intro j
  induction j with
  | zero =>
    intro n k hj
    rcases n with _ | _ | m
    · omega
    · simp [argTokens]
    · rw [show argTokens k (m + 2) =
        identTok "a" k :: commaTok :: argTokens (k + 1) (m + 1) from rfl]
      simp
  | succ i ih =>
    intro n k hj
    rcases n with _ | _ | m
    · omega
    · omega
    · rw [show argTokens k (m + 2) =
        identTok "a" k :: commaTok :: argTokens (k + 1) (m + 1) from rfl]
      rw [show 2 * (i + 1) = (2 * i + 1) + 1 by omega]
      rw [List.getElem?_cons_succ, List.getElem?_cons_succ]
      have h := ih (m + 1) (k + 1) (by omega)
      rw [show k + 1 + i = k + (i + 1) by omega] at h
      exact h

theorem argTokens_get_odd : ∀ (j n k : Nat), j + 1 < n →
    (argTokens k n)[2 * j + 1]? = some commaTok := by
  intro j
  induction j with
  | zero =>
    intro n k hj
    rcases n with _ | _ | m
    · omega
    · omega
    · rw [show argTokens k (m + 2) =
        identTok "a" k :: commaTok :: argTokens (k + 1) (m + 1) from rfl]
      simp
  | succ i ih =>
    intro n k hj
    rcases n with _ | _ | m
    · omega
    · omega
    · rw [show argTokens k (m + 2) =
        identTok "a" k :: commaTok :: argTokens (k + 1) (m + 1) from rfl]
      rw [show 2 * (i + 1) + 1 = (2 * i + 1 + 1) + 1 by omega]
      rw [List.getElem?_cons_succ, List.getElem?_cons_succ]
      exact ih (m + 1) (k + 1) (by omega)

theorem callSiteTokens_arg (n j : Nat) (hj : j < n) :
    (callSiteTokens n)[2 + 2 * j]? = some (identTok "a" (1 + j)) := by
  show (identTok "f" 0 :: lparenTok :: (argTokens 1 n ++ [rparenTok, eofTok]))[2 + 2 * j]?
      = some (identTok "a" (1 + j))
  rw [show 2 + 2 * j = (2 * j + 1) + 1 by omega]
  rw [List.getElem?_cons_succ, List.getElem?_cons_succ]
  rw [List.getElem?_append_left (by rw [argTokens_length n 1 (by omega)]; omega)]
  exact argTokens_get_even j n 1 hj

theorem callSiteTokens_comma (n j : Nat) (hj : j + 1 < n) :
    (callSiteTokens n)[2 + 2 * j + 1]? = some commaTok := by
  show (identTok "f" 0 :: lparenTok :: (argTokens 1 n ++ [rparenTok, eofTok]))[2 + 2 * j + 1]?
      = some commaTok
  rw [show 2 + 2 * j + 1 = (2 * j + 1 + 1) + 1 by omega]
  rw [List.getElem?_cons_succ, List.getElem?_cons_succ]
  rw [List.getElem?_append_left (by rw [argTokens_length n 1 (by omega)]; omega)]
  exact argTokens_get_odd j n 1 hj

theorem callSiteTokens_rparen (n : Nat) (hn : 1 ≤ n) :
    (callSiteTokens n)[2 * n + 1]? = some rparenTok := by
  show (identTok "f" 0 :: lparenTok :: (argTokens 1 n ++ [rparenTok, eofTok]))[2 * n + 1]?
      = some rparenTok
  rw [show 2 * n + 1 = (2 * n - 1) + 1 + 1 by omega]
  rw [List.getElem?_cons_succ, List.getElem?_cons_succ]
  rw [List.getElem?_append_right (by rw [argTokens_length n 1 hn])]
  rw [argTokens_length n 1 hn]
  simp

theorem callSiteTokens_eof (n : Nat) (hn : 1 ≤ n) :
    (callSiteTokens n)[2 * n + 2]? = some eofTok := by
  show (identTok "f" 0 :: lparenTok :: (argTokens 1 n ++ [rparenTok, eofTok]))[2 * n + 2]?
      = some eofTok
  rw [show 2 * n + 2 = (2 * n) + 1 + 1 by omega]
  rw [List.getElem?_cons_succ, List.getElem?_cons_succ]
  rw [List.getElem?_append_right (by rw [argTokens_length n 1 hn]; omega)]
  rw [argTokens_length n 1 hn]
  rw [show 2 * n - (2 * n - 1) = 1 by omega]
  simp

theorem finish_call_spec (n f p k : Nat) (errs : List (Token × String))
    (tks : List Token) (callee : Expr)
    (hn : 1 ≤ n) (hf : n + 11 ≤ f)
    (H1 : ∀ j, j < n → tks[p + 2 * j]? = some (identTok "a" (k + j)))
    (H2 : ∀ j, j + 1 < n → tks[p + 2 * j + 1]? = some commaTok)
    (H3 : tks[p + 2 * (n - 1) + 1]? = some rparenTok) :
    finish_call (f + 1) ⟨tks, p, errs⟩ callee =
      (Except.ok (Expr.call callee rparenTok (argExprs k n)),
       ⟨tks, p + 2 * n, errs ++ capErrors 0 k n⟩) := by
  have ht0 : tks[p]? = some (identTok "a" k) := by
    have h := H1 0 (by omega)
    simpa using h
  have hpk : (⟨tks, p, errs⟩ : ParserState).peek = identTok "a" k := by
    simp [ParserState.peek, ht0]
  have hck : ParserState.check ⟨tks, p, errs⟩ TokenType.rightParen = false := by
    apply check_ne
    rw [hpk]
    simp [identTok]
  have hrp : tks[p + 2 * n - 1]? = some rparenTok := by
    have h := H3
    rw [show p + 2 * (n - 1) + 1 = p + 2 * n - 1 by omega] at h
    exact h
  simp only [finish_call, hck, Bool.false_eq_true, if_false]
  rw [finishCallArgs_spec n f p k errs ([] : List Expr) tks hn (by omega) H1 H2 H3]
  split
  · rename_i e1 st1 heq2
    cases heq2
  · rename_i e1 st1 heq2
    cases heq2
    have hpk2 : ∀ e2 : List (Token × String),
        (⟨tks, p + 2 * n - 1, e2⟩ : ParserState).peek = rparenTok := by
      intro e2
      simp [ParserState.peek, hrp]
    have hchk : ∀ e2 : List (Token × String),
        ParserState.check ⟨tks, p + 2 * n - 1, e2⟩ TokenType.rightParen = true := by
      intro e2
      simp [ParserState.check, ParserState.is_at_end, hpk2 e2, beq_iff_eq, rparenTok]
    have hadv : ∀ e2 : List (Token × String),
        ParserState.advanceP ⟨tks, p + 2 * n - 1, e2⟩ = ⟨tks, p + 2 * n - 1 + 1, e2⟩ := by
      intro e2
      simp only [ParserState.advanceP, ParserState.is_at_end, hpk2 e2]
      rw [show (rparenTok.token_type == TokenType.eof) = false from rfl]
      simp
    have hprev : ∀ e2 : List (Token × String),
        ParserState.previous ⟨tks, p + 2 * n - 1 + 1, e2⟩ = rparenTok := by
      intro e2
      simp [ParserState.previous, hrp]
    simp only [consume, hchk, if_true, hadv, hprev]
    rw [show p + 2 * n - 1 + 1 = p + 2 * n by omega]
    simp


/-- Precedence chain: when the leading tokens rule out every prefix operator
and the state after `call` rules out every infix operator, `expression`
returns exactly what `call` returned.  All states abstract, so each unfolding
step is cheap. -/
theorem expr_from_call (f : Nat) (st st1 : ParserState) (e : Expr)
    (hcall : call f st = (Except.ok e, st1))
    (hb : st.check TokenType.bang = false)
    (hm : st.check TokenType.minus = false)
    (hc : ∀ tt : TokenType, tt ≠ TokenType.eof → st1.check tt = false) :
    expression (f + 9) st = (Except.ok e, st1) := by
  have hunary : unary (f + 1) st = (Except.ok e, st1) := by
    rw [unary]
    rw [is_match_advance_two_false st TokenType.bang TokenType.minus hb hm]
    exact hcall
  have hfactor : factor (f + 2) st = (Except.ok e, st1) := by
    show factor ((f + 1) + 1) st = _
    simp only [factor]
    rw [hunary]
    exact factorLoop_exit f st1 e (hc TokenType.slash (by decide))
      (hc TokenType.star (by decide))
  have hterm : term (f + 3) st = (Except.ok e, st1) := by
    show term ((f + 2) + 1) st = _
    simp only [term]
    rw [hfactor]
    exact termLoop_exit (f + 1) st1 e (hc TokenType.minus (by decide))
      (hc TokenType.plus (by decide))
  have hcomp : comparison (f + 4) st = (Except.ok e, st1) := by
    show comparison ((f + 3) + 1) st = _
    simp only [comparison]
    rw [hterm]
    exact comparisonLoop_exit (f + 2) st1 e (hc TokenType.greater (by decide))
      (hc TokenType.greaterEqual (by decide)) (hc TokenType.less (by decide))
      (hc TokenType.lessEqual (by decide))
  have heqy : equality (f + 5) st = (Except.ok e, st1) := by
    show equality ((f + 4) + 1) st = _
    simp only [equality]
    rw [hcomp]
    exact equalityLoop_exit (f + 3) st1 e (hc TokenType.bangEqual (by decide))
      (hc TokenType.equalEqual (by decide))
  have hand : andExpr (f + 6) st = (Except.ok e, st1) := by
    show andExpr ((f + 5) + 1) st = _
    simp only [andExpr]
    rw [heqy]
    exact andLoop_exit (f + 4) st1 e (hc TokenType.andK (by decide))
  have hor : orExpr (f + 7) st = (Except.ok e, st1) := by
    show orExpr ((f + 6) + 1) st = _
    simp only [orExpr]
    rw [hand]
    exact orLoop_exit (f + 5) st1 e (hc TokenType.orK (by decide))
  show expression ((f + 8) + 1) st = _
  rw [expression]
  show assignment ((f + 7) + 1) st = _
  rw [assignment, hor]
  split
  · rename_i e1 stE heq2
    cases heq2
  · rename_i expr stE heq2
    cases heq2
    rw [is_match_advance_one_false st1 TokenType.equal (hc TokenType.equal (by decide))]
    rfl

set_option maxHeartbeats 1600000 in
/-- Parsing `f(a, a, ..., a)` with `n ≥ 1` arguments from position 0:
the whole token list is consumed up to the trailing eof, the result is the
call expression with `n` argument variables, and the error sink holds
exactly the cap reports that fired. -/
theorem callSite_parse (n : Nat) (hn : 1 ≤ n) :
    expression (n + 24) ⟨callSiteTokens n, 0, []⟩ =
      (Except.ok (Expr.call (Expr.variable (identTok "f" 0)) rparenTok (argExprs 1 n)),
       ⟨callSiteTokens n, 2 * n + 2, capErrors 0 1 n⟩) := by
  have ht0 : (callSiteTokens n)[0]? = some (identTok "f" 0) := by
    show (identTok "f" 0 :: (lparenTok :: (argTokens 1 n ++ [rparenTok, eofTok])))[0]?
        = some (identTok "f" 0)
    exact List.getElem?_cons_zero
  have ht1 : (callSiteTokens n)[1]? = some lparenTok := by
    show (identTok "f" 0 :: (lparenTok :: (argTokens 1 n ++ [rparenTok, eofTok])))[1]?
        = some lparenTok
    have h := @List.getElem?_cons_succ _ (identTok "f" 0) 0
      (lparenTok :: (argTokens 1 n ++ [rparenTok, eofTok]))
    rw [show (1 : Nat) = 0 + 1 from rfl, h]
    exact List.getElem?_cons_zero
  have heof : (callSiteTokens n)[2 * n + 2]? = some eofTok := callSiteTokens_eof n hn
  have hp0 : (⟨callSiteTokens n, 0, []⟩ : ParserState).peek = identTok "f" 0 := by
    simp [ParserState.peek, ht0]
  have hcp0 : ∀ tt : TokenType, tt ≠ TokenType.identifier →
      ParserState.check ⟨callSiteTokens n, 0, []⟩ tt = false := by
    intro tt hA
    apply check_ne
    rw [hp0]
    simp [identTok]
    exact fun hh => hA hh.symm
  have hp1 : (⟨callSiteTokens n, 1, []⟩ : ParserState).peek = lparenTok := by
    simp [ParserState.peek, ht1]
  have hchk1 : ParserState.check ⟨callSiteTokens n, 1, []⟩ TokenType.leftParen = true := by
    simp [ParserState.check, ParserState.is_at_end, hp1, beq_iff_eq, lparenTok]
  have hadv1 : ParserState.advanceP ⟨callSiteTokens n, 1, []⟩ = ⟨callSiteTokens n, 2, []⟩ := by
    simp [ParserState.advanceP, ParserState.is_at_end, hp1, beq_iff_eq, lparenTok]
  have hpF : (⟨callSiteTokens n, 2 * n + 2, capErrors 0 1 n⟩ : ParserState).peek = eofTok := by
    simp [ParserState.peek, heof]
  have hcF : ∀ tt : TokenType, tt ≠ TokenType.eof →
      ParserState.check ⟨callSiteTokens n, 2 * n + 2, capErrors 0 1 n⟩ tt = false := by
    intro tt hA
    apply check_ne
    rw [hpF]
    exact fun hh => hA hh.symm
  have H3c : (callSiteTokens n)[2 + 2 * (n - 1) + 1]? = some rparenTok := by
    rw [show 2 + 2 * (n - 1) + 1 = 2 * n + 1 by omega]
    exact callSiteTokens_rparen n hn
  have hfc : finish_call (n + 13) ⟨callSiteTokens n, 2, []⟩
      (Expr.variable (identTok "f" 0)) =
      (Except.ok (Expr.call (Expr.variable (identTok "f" 0)) rparenTok (argExprs 1 n)),
       ⟨callSiteTokens n, 2 * n + 2, capErrors 0 1 n⟩) := by
    have h := finish_call_spec n (n + 12) 2 1 [] (callSiteTokens n)
      (Expr.variable (identTok "f" 0)) hn (by omega)
      (fun j hj => callSiteTokens_arg n j hj)
      (fun j hj => callSiteTokens_comma n j hj) H3c
    rw [show 2 + 2 * n = 2 * n + 2 by omega] at h
    simpa using h
  have hprim : primary (n + 14) ⟨callSiteTokens n, 0, []⟩ =
      (Except.ok (Expr.variable (identTok "f" 0)), ⟨callSiteTokens n, 1, []⟩) := by
    have h := primary_ident (n + 13) (callSiteTokens n) 0 [] (identTok "f" 0) ht0 rfl
    simpa using h
  have hclpInner : callLoop (n + 13) ⟨callSiteTokens n, 2 * n + 2, capErrors 0 1 n⟩
      (Expr.call (Expr.variable (identTok "f" 0)) rparenTok (argExprs 1 n)) =
      (Except.ok (Expr.call (Expr.variable (identTok "f" 0)) rparenTok (argExprs 1 n)),
       ⟨callSiteTokens n, 2 * n + 2, capErrors 0 1 n⟩) :=
    callLoop_exit (n + 12) _ _ (hcF TokenType.leftParen (by decide))
  have hclp : callLoop (n + 14) ⟨callSiteTokens n, 1, []⟩
      (Expr.variable (identTok "f" 0)) =
      (Except.ok (Expr.call (Expr.variable (identTok "f" 0)) rparenTok (argExprs 1 n)),
       ⟨callSiteTokens n, 2 * n + 2, capErrors 0 1 n⟩) := by
    show callLoop ((n + 13) + 1) _ _ = _
    rw [callLoop]
    rw [is_match_advance_one_true _ TokenType.leftParen hchk1, hadv1]
    simp only [hfc]
    exact hclpInner
  have hcall : call (n + 15) ⟨callSiteTokens n, 0, []⟩ =
      (Except.ok (Expr.call (Expr.variable (identTok "f" 0)) rparenTok (argExprs 1 n)),
       ⟨callSiteTokens n, 2 * n + 2, capErrors 0 1 n⟩) := by
    show call ((n + 14) + 1) _ = _
    simp only [call]
    rw [hprim]
    exact hclp
  have h := expr_from_call (n + 15) ⟨callSiteTokens n, 0, []⟩
    ⟨callSiteTokens n, 2 * n + 2, capErrors 0 1 n⟩
    (Expr.call (Expr.variable (identTok "f" 0)) rparenTok (argExprs 1 n))
    hcall (hcp0 TokenType.bang (by decide)) (hcp0 TokenType.minus (by decide)) hcF
  rw [show n + 24 = n + 15 + 9 by omega]
  exact h


/-- While fewer than 255 arguments have been collected at every loop entry,
the cap emits nothing. -/
theorem capErrors_nil (n : Nat) : ∀ c k : Nat, c + n ≤ 255 → capErrors c k n = [] := by
  induction n with
  | zero => intro c k _; rfl
  | succ m ih =>
    intro c k h
    show capIf c k ++ capErrors (c + 1) (k + 1) m = []
    rw [ih (c + 1) (k + 1) (by omega)]
    simp [capIf, show ¬ 255 ≤ c by omega]

/-- When the loop finishes with exactly 256 arguments collected, the cap
fired exactly once, at the last argument. -/
theorem capErrors_last (n : Nat) : ∀ c k : Nat, c + n = 256 → 1 ≤ n →
    capErrors c k n = [(identTok "a" (k + n - 1), "Can't have more than 255 arguments.")] := by
  induction n with
  | zero => intro c k _ h1; omega
  | succ m ih =>
    intro c k h h1
    show capIf c k ++ capErrors (c + 1) (k + 1) m = _
    rcases Nat.eq_zero_or_pos m with hm | hm
    · subst hm
      have hc : c = 255 := by omega
      subst hc
      simp [capIf, capErrors]
    · rw [ih (c + 1) (k + 1) (by omega) hm]
      rw [show k + 1 + m - 1 = k + (m + 1) - 1 by omega]
      simp [capIf, show ¬ 255 ≤ c by omega]

/-- C9: parsing a call site `f(a, ..., a)` with n ≤ 256 arguments succeeds
(the cap is non-fatal: the call expression with all n arguments is built),
and the error sink receives exactly one report — at the 256th argument's
token, with message "Can't have more than 255 arguments." — when n = 256,
and nothing when n ≤ 255. -/
theorem C9_argument_cap (n : Nat) (hn : n ≤ 256) :
    (expression (n + 24) ⟨callSiteTokens n, 0, []⟩).1 =
      Except.ok (Expr.call (Expr.variable (identTok "f" 0)) rparenTok (argExprs 1 n)) ∧
    (expression (n + 24) ⟨callSiteTokens n, 0, []⟩).2.errors =
      (if n = 256 then [(identTok "a" 256, "Can't have more than 255 arguments.")]
       else []) := by
  rcases Nat.eq_zero_or_pos n with h0 | h1
  · subst h0
    exact ⟨rfl, rfl⟩
  · rw [callSite_parse n h1]
    refine ⟨rfl, ?_⟩
    show capErrors 0 1 n = _
    by_cases h256 : n = 256
    · subst h256
      rw [capErrors_last 256 0 1 rfl (by omega)]
      simp
    · rw [capErrors_nil n 0 1 (by omega), if_neg h256]

theorem C9_witness :
    256 ≤ 256 ∧
    (expression (256 + 24) ⟨callSiteTokens 256, 0, []⟩).2.errors =
      (if 256 = 256 then [(identTok "a" 256, "Can't have more than 255 arguments.")]
       else []) :=
  ⟨by decide, (C9_argument_cap 256 (by decide)).2⟩

end Rustlox
